import Mathlib

/-!
# AudioStreamOutALSA: write engine, lifecycle and accessors

A shallow embedding of `AudioStreamOutALSA.cpp`.  The stream object is a record of its
C++ members together with the state of the two external worlds it talks to (the ALSA
driver and the mirror socket) and a log of the external calls it has issued.  External
routines (alsa-lib, the ALSA module, the socket layer) are deterministic oracles over
those worlds, collected in `Env`; every theorem quantifies over them.

Integer conventions.  Byte counts (`size_t bytes`, `sent`) are exact naturals: a buffer
is a C object, so its size fits `ssize_t` and the conversions in `write` are exact.
The rendered-frame counter `mFrameCount` is a `uint32_t` and is read out through
`uint32_t *dspFrames`, so `mFrameCount += n` is taken modulo `2 ^ 32` (what
`getRenderPosition` reports is the same for any wider counter).  `latency` is computed
in the unsigned type of `alsa_handle_t::latency`, whose width is a parameter.

The acoustics hooks are fire-and-forget: they appear in the log and change nothing.
The lock `mLock` serialises `write`, `open`, `standby` and `close`; each is modelled
as one atomic step.  The mirror server thread is represented only by its updates of
`pcm_server_socket` between calls.
-/

namespace android

/-- Linux `errno` value of `EBADFD` (asm-generic, as on ARM and x86). -/
def EBADFD : Int := 77

/-- Android `status_t` success value. -/
def NO_ERROR : Int := 0

/-- Modulus of `uint32_t`. -/
def UINT32_MOD : Nat := 2 ^ 32

/-- The members of `alsa_handle_t` the stream reads.  `handle` is the `snd_pcm_t *`
    (`0` is the null pointer); `latency` is in microseconds. -/
structure alsa_handle_t where
  handle : Nat
  curDev : Nat
  curMode : Int
  latency : Nat
  deriving DecidableEq, Repr

/-- Which hooks of the acoustics module are present (non-null function pointers). -/
structure acoustic_device_t where
  write : Bool
  recover : Bool
  deriving DecidableEq, Repr

/-- External calls issued by the stream, in program order. -/
inductive Event where
  | acquire_wake_lock
  | release_wake_lock
  | aDev_write (bytes : Nat)
  | aDev_recover (n : Int)
  | sock_write (fd : Int) (off len : Nat) (ret : Int)
  | sock_close (fd : Int)
  | snd_pcm_writei (pcm : Nat) (off frames : Nat) (ret : Int)
  | module_open (curDev : Nat) (curMode : Int)
  | snd_pcm_recover (pcm : Nat) (err ret : Int)
  | snd_pcm_drain (pcm : Nat)
  | ops_open (mode : Int)
  | ops_close
  deriving DecidableEq, Repr

/-- The external collaborators of the stream.  `σ` is the state of the ALSA side, `τ`
    the state of the socket layer.
    * `frameSize`: bytes per frame of the PCM (fixed by the format and channel count
      stored in the handle, which a reopen re-applies);
    * `acoustics`: the result of `acoustics()`;
    * `snd_pcm_writei w pcm data frames`, `snd_pcm_recover w pcm err`,
      `snd_pcm_drain w pcm`: alsa-lib;
    * `module_open w h dev mode`: `mHandle->module->open`, which may rewrite the handle;
    * `ops_open`, `ops_close`: the device routines behind `ALSAStreamOps::open` and
      `ALSAStreamOps::close`;
    * `sock_write t fd data count`: `::write` on the mirror socket;
      `sock_close`: `::close`. -/
structure Env (σ τ : Type) where
  frameSize : Nat
  acoustics : Option acoustic_device_t
  snd_pcm_writei : σ → Nat → List Nat → Nat → Int × σ
  snd_pcm_recover : σ → Nat → Int → Int × σ
  snd_pcm_drain : σ → Nat → σ
  module_open : σ → alsa_handle_t → Nat → Int → alsa_handle_t × σ
  ops_open : σ → alsa_handle_t → Int → Int × alsa_handle_t × σ
  ops_close : σ → alsa_handle_t → alsa_handle_t × σ
  sock_write : τ → Int → List Nat → Nat → Int × τ
  sock_close : τ → Int → τ

/-- The stream object: its C++ members (`mHandle` is the borrowed handle record), the
    two external worlds, and the log of external calls. -/
structure AudioStreamOutALSA (σ τ : Type) where
  mHandle : alsa_handle_t
  mFrameCount : Nat
  mPowerLock : Bool
  pcm_server_socket : Int
  pcm : σ
  net : τ
  trace : List Event
  deriving DecidableEq, Repr

/-- What `write` hands back: the early `return n` of a failed recovery, or the final
    `return sent`. -/
inductive WriteRet where
  | error (code : Int)
  | count (sent : Nat)
  deriving DecidableEq, Repr

/-- The `ssize_t` the caller sees. -/
def WriteRet.toSsize : WriteRet → Int
  | .error code => code
  | .count sent => (sent : Int)

/-- Outcome of one pass through the body of the device loop: an early return, or
    arrival at the loop condition with the new value of `sent`. -/
inductive Iter (α : Type) where
  | ret (code : Int) (s : α)
  | next (sent : Nat) (s : α)
  deriving DecidableEq, Repr

/-- The stream an outcome of one pass carries. -/
def Iter.state {α : Type} : Iter α → α
  | .ret _ s => s
  | .next _ s => s

/-- alsa-lib `snd_pcm_bytes_to_frames` for a PCM whose frame is `frameSize` bytes. -/
def snd_pcm_bytes_to_frames (frameSize bytes : Nat) : Nat := bytes / frameSize

/-- alsa-lib `snd_pcm_frames_to_bytes` for a PCM whose frame is `frameSize` bytes. -/
def snd_pcm_frames_to_bytes (frameSize : Nat) (frames : Int) : Int := frames * frameSize

/-- The bytes at `buffer + off`, `len` of them. -/
def slice (buffer : List Nat) (off len : Nat) : List Nat := (buffer.drop off).take len

variable {σ τ : Type}

/-- The hook call made by `if (aDev && aDev->recover) aDev->recover(aDev, n);`: the
    call when the module and its hook are present, nothing otherwise. -/
def recoverHook (E : Env σ τ) (n : Int) : List Event :=
  match E.acoustics with
  | some aDev => if aDev.recover then [Event.aDev_recover n] else []
  | none => []

/-- The hook call made by `if (aDev && aDev->write) aDev->write(aDev, buffer, bytes);`. -/
def writeHook (E : Env σ τ) (bytes : Nat) : List Event :=
  match E.acoustics with
  | some aDev => if aDev.write then [Event.aDev_write bytes] else []
  | none => []

/-- The statement `if (aDev && aDev->recover) aDev->recover(aDev, n);`. -/
def notifyRecover (E : Env σ τ) (n : Int) (s : AudioStreamOutALSA σ τ) :
    AudioStreamOutALSA σ τ :=
  { s with trace := s.trace ++ recoverHook E n }

/-- The statement `if (aDev && aDev->write) aDev->write(aDev, buffer, bytes);`. -/
def notifyWrite (E : Env σ τ) (bytes : Nat) (s : AudioStreamOutALSA σ τ) :
    AudioStreamOutALSA σ τ :=
  { s with trace := s.trace ++ writeHook E bytes }

/-- The power-lock prologue of `write`. -/
def acquirePowerLock (s : AudioStreamOutALSA σ τ) : AudioStreamOutALSA σ τ :=
  if s.mPowerLock then s
  else { s with mPowerLock := true, trace := s.trace ++ [Event.acquire_wake_lock] }

/-- The power-lock epilogue shared by `close` and `standby`. -/
def releasePowerLock (s : AudioStreamOutALSA σ τ) : AudioStreamOutALSA σ τ :=
  if s.mPowerLock then
    { s with mPowerLock := false, trace := s.trace ++ [Event.release_wake_lock] }
  else s

/-- The mirror loop of `write`:
    `do { pcm_sent = ::write(sock, buffer + pcm_sent, bytes - pcm_sent); } while (pcm_sent > 0);`
    The first argument bounds the number of passes; `none` means the bound was hit.
    `::write` returns -1 or at most the count it was offered, so `pcm_sent` stays within
    `bytes` and `bytes - pcm_sent` does not wrap. -/
def mirrorLoop (E : Env σ τ) (buffer : List Nat) (bytes : Nat) :
    Nat → Int → AudioStreamOutALSA σ τ → Option (AudioStreamOutALSA σ τ)
  | 0, _, _ => none
  | fuel + 1, pcm_sent, s =>
    let off := pcm_sent.toNat
    let len := bytes - off
    let r := E.sock_write s.net s.pcm_server_socket (slice buffer off len) len
    let s1 := { s with net := r.2,
                       trace := s.trace ++ [Event.sock_write s.pcm_server_socket off len r.1] }
    if 0 < r.1 then mirrorLoop E buffer bytes fuel r.1 s1 else some s1

/-- The frame count offered to the device when `sent` bytes have gone out:
    `snd_pcm_bytes_to_frames(mHandle->handle, bytes - sent)`. -/
def offeredFrames (E : Env σ τ) (bytes sent : Nat) : Nat :=
  snd_pcm_bytes_to_frames E.frameSize (bytes - sent)

/-- The call `snd_pcm_writei(mHandle->handle, buffer + sent, ...)` of the loop body: its
    result and the device world after it. -/
def writeiAt (E : Env σ τ) (buffer : List Nat) (bytes sent : Nat)
    (s : AudioStreamOutALSA σ τ) : Int × σ :=
  E.snd_pcm_writei s.pcm s.mHandle.handle
    (slice buffer sent (offeredFrames E bytes sent * E.frameSize)) (offeredFrames E bytes sent)

/-- One pass through the body of the device loop of `write`. -/
def writeIter (E : Env σ τ) (buffer : List Nat) (bytes sent : Nat)
    (s : AudioStreamOutALSA σ τ) : Iter (AudioStreamOutALSA σ τ) :=
  let n := (writeiAt E buffer bytes sent s).1
  let s1 := { s with pcm := (writeiAt E buffer bytes sent s).2,
                     trace := s.trace ++
                       [Event.snd_pcm_writei s.mHandle.handle sent (offeredFrames E bytes sent) n] }
  if n = -EBADFD then
    let o := E.module_open s1.pcm s1.mHandle s1.mHandle.curDev s1.mHandle.curMode
    let s2 := { s1 with mHandle := o.1, pcm := o.2,
                        trace := s1.trace ++
                          [Event.module_open s1.mHandle.curDev s1.mHandle.curMode] }
    .next sent (notifyRecover E n s2)
  else if n < 0 then
    if s1.mHandle.handle ≠ 0 then
      let r := E.snd_pcm_recover s1.pcm s1.mHandle.handle n
      let s2 := { s1 with pcm := r.2,
                          trace := s1.trace ++
                            [Event.snd_pcm_recover s1.mHandle.handle n r.1] }
      let s3 := notifyRecover E r.1 s2
      if r.1 ≠ 0 then .ret r.1 s3 else .next sent s3
    else .next sent s1
  else
    .next (sent + (snd_pcm_frames_to_bytes E.frameSize n).toNat)
      { s1 with mFrameCount := (s1.mFrameCount + n.toNat) % UINT32_MOD }

/-- The device loop of `write`: `do { body } while (mHandle->handle && sent < bytes);`
    followed by `return sent`.  The first argument bounds the number of passes. -/
def deviceLoop (E : Env σ τ) (buffer : List Nat) (bytes : Nat) :
    Nat → Nat → AudioStreamOutALSA σ τ → Option (WriteRet × AudioStreamOutALSA σ τ)
  | 0, _, _ => none
  | fuel + 1, sent, s =>
    match writeIter E buffer bytes sent s with
    | .ret code s1 => some (.error code, s1)
    | .next sent1 s1 =>
      if s1.mHandle.handle ≠ 0 ∧ sent1 < bytes then deviceLoop E buffer bytes fuel sent1 s1
      else some (.count sent1, s1)

/-- The mirror section of `write`: skipped when no client is connected. -/
def mirrorSection (E : Env σ τ) (buffer : List Nat) (bytes mfuel : Nat)
    (s : AudioStreamOutALSA σ τ) : Option (AudioStreamOutALSA σ τ) :=
  if s.pcm_server_socket ≠ 0 then mirrorLoop E buffer bytes mfuel 0 s else some s

/-- `AudioStreamOutALSA::write`.  `mfuel` and `dfuel` bound the passes of the mirror
    loop and of the device loop. -/
def write (E : Env σ τ) (buffer : List Nat) (bytes mfuel dfuel : Nat)
    (s : AudioStreamOutALSA σ τ) : Option (WriteRet × AudioStreamOutALSA σ τ) :=
  match mirrorSection E buffer bytes mfuel (notifyWrite E bytes (acquirePowerLock s)) with
  | none => none
  | some s1 => deviceLoop E buffer bytes dfuel 0 s1

/-- Modelled from the spec: `ALSAStreamOps::open` (defined outside
    `AudioStreamOutALSA.cpp`) delegates to the underlying device-open routine with the
    given mode; it acts on the handle and the device, returns a status, and touches
    neither the power lock nor the frame counter. -/
def opsOpen (E : Env σ τ) (mode : Int) (s : AudioStreamOutALSA σ τ) :
    Int × AudioStreamOutALSA σ τ :=
  ((E.ops_open s.pcm s.mHandle mode).1,
   { s with mHandle := (E.ops_open s.pcm s.mHandle mode).2.1,
            pcm := (E.ops_open s.pcm s.mHandle mode).2.2,
            trace := s.trace ++ [Event.ops_open mode] })

/-- `AudioStreamOutALSA::open`: `return ALSAStreamOps::open(mode);` under the lock. -/
def open_ (E : Env σ τ) (mode : Int) (s : AudioStreamOutALSA σ τ) :
    Int × AudioStreamOutALSA σ τ :=
  opsOpen E mode s

/-- The statement `if (pcm_server_socket) { ::close(pcm_server_socket); pcm_server_socket = 0; }`. -/
def closeMirror (E : Env σ τ) (s : AudioStreamOutALSA σ τ) : AudioStreamOutALSA σ τ :=
  if s.pcm_server_socket ≠ 0 then
    { s with net := E.sock_close s.net s.pcm_server_socket, pcm_server_socket := 0,
             trace := s.trace ++ [Event.sock_close s.pcm_server_socket] }
  else s

/-- The statement `snd_pcm_drain (mHandle->handle);`. -/
def drain (E : Env σ τ) (s : AudioStreamOutALSA σ τ) : AudioStreamOutALSA σ τ :=
  { s with pcm := E.snd_pcm_drain s.pcm s.mHandle.handle,
           trace := s.trace ++ [Event.snd_pcm_drain s.mHandle.handle] }

/-- Modelled from the spec: `ALSAStreamOps::close` (defined outside
    `AudioStreamOutALSA.cpp`) releases the underlying device resources; it acts on the
    handle and the device and touches neither the power lock nor the frame counter. -/
def opsClose (E : Env σ τ) (s : AudioStreamOutALSA σ τ) : AudioStreamOutALSA σ τ :=
  { s with mHandle := (E.ops_close s.pcm s.mHandle).1, pcm := (E.ops_close s.pcm s.mHandle).2,
           trace := s.trace ++ [Event.ops_close] }

/-- `AudioStreamOutALSA::close`. -/
def close (E : Env σ τ) (s : AudioStreamOutALSA σ τ) : Int × AudioStreamOutALSA σ τ :=
  (NO_ERROR, closeMirror E (releasePowerLock (opsClose E (drain E s))))

/-- `AudioStreamOutALSA::standby`. -/
def standby (E : Env σ τ) (s : AudioStreamOutALSA σ τ) : Int × AudioStreamOutALSA σ τ :=
  (NO_ERROR, { releasePowerLock (drain E s) with mFrameCount := 0 })

/-- The macro `USEC_TO_MSEC(x)` evaluated in an unsigned type of `w` bits. -/
def USEC_TO_MSEC (w x : Nat) : Nat := ((x % 2 ^ w + 999) % 2 ^ w) / 1000

/-- `AudioStreamOutALSA::latency`, with `alsa_handle_t::latency` an unsigned integer of
    `w` bits; the result is returned as `uint32_t`. -/
def latency (w : Nat) (s : AudioStreamOutALSA σ τ) : Nat :=
  USEC_TO_MSEC w s.mHandle.latency % UINT32_MOD

/-- `AudioStreamOutALSA::getRenderPosition`: the status and the value stored through
    `uint32_t *dspFrames`. -/
def getRenderPosition (s : AudioStreamOutALSA σ τ) : Int × Nat :=
  (NO_ERROR, s.mFrameCount % UINT32_MOD)

/-- `AudioStreamOutALSA::setPCMServerSocket`. -/
def setPCMServerSocket (csocket : Int) (s : AudioStreamOutALSA σ τ) :
    AudioStreamOutALSA σ τ :=
  { s with pcm_server_socket := csocket }

/-- The calls a caller (or the mirror server thread, for `setPCMServerSocket`) can make
    on the stream.  A `write` carries the bounds on its two loops. -/
inductive Op where
  | write (buffer : List Nat) (bytes mfuel dfuel : Nat)
  | open_ (mode : Int)
  | standby
  | close
  | setPCMServerSocket (csocket : Int)
  deriving DecidableEq, Repr

/-- Run one call to completion; `none` when a `write` hits a loop bound. -/
def runOp (E : Env σ τ) : Op → AudioStreamOutALSA σ τ → Option (AudioStreamOutALSA σ τ)
  | .write buffer bytes mfuel dfuel, s => (write E buffer bytes mfuel dfuel s).map Prod.snd
  | .open_ mode, s => some (open_ E mode s).2
  | .standby, s => some (standby E s).2
  | .close, s => some (close E s).2
  | .setPCMServerSocket csocket, s => some (setPCMServerSocket csocket s)

/-- Run a sequence of calls, each to completion. -/
def run (E : Env σ τ) : List Op → AudioStreamOutALSA σ τ → Option (AudioStreamOutALSA σ τ)
  | [], s => some s
  | op :: ops, s =>
    match runOp E op s with
    | none => none
    | some s1 => run E ops s1

/-- The state at the top of pass `k` (counting from 0) of the device loop started with
    `sent` and `s`, when the loop gets that far. -/
def loopState (E : Env σ τ) (buffer : List Nat) (bytes : Nat) :
    Nat → Nat → AudioStreamOutALSA σ τ → Option (Nat × AudioStreamOutALSA σ τ)
  | 0, sent, s => some (sent, s)
  | k + 1, sent, s =>
    match writeIter E buffer bytes sent s with
    | .ret _ _ => none
    | .next sent1 s1 =>
      if s1.mHandle.handle ≠ 0 ∧ sent1 < bytes then loopState E buffer bytes k sent1 s1
      else none

/-- The state at the top of pass `k` (counting from 0) of the mirror loop, when the
    loop gets that far. -/
def mirrorState (E : Env σ τ) (buffer : List Nat) (bytes : Nat) :
    Nat → Int → AudioStreamOutALSA σ τ → Option (Int × AudioStreamOutALSA σ τ)
  | 0, pcm_sent, s => some (pcm_sent, s)
  | k + 1, pcm_sent, s =>
    let off := pcm_sent.toNat
    let len := bytes - off
    let r := E.sock_write s.net s.pcm_server_socket (slice buffer off len) len
    let s1 := { s with net := r.2,
                       trace := s.trace ++ [Event.sock_write s.pcm_server_socket off len r.1] }
    if 0 < r.1 then mirrorState E buffer bytes k r.1 s1 else none

/-- Frames the device reported accepted in a log: the non-negative results of
    `snd_pcm_writei`, summed. -/
def framesAccepted : List Event → Nat
  | [] => 0
  | Event.snd_pcm_writei _ _ _ ret :: es =>
    (if 0 ≤ ret then ret.toNat else 0) + framesAccepted es
  | _ :: es => framesAccepted es

/-- The wake-lock calls of a log, in order: `true` for an acquisition, `false` for a
    release. -/
def wakeLog : List Event → List Bool
  | [] => []
  | Event.acquire_wake_lock :: es => true :: wakeLog es
  | Event.release_wake_lock :: es => false :: wakeLog es
  | _ :: es => wakeLog es

/-- Starting with the lock held or not (`held`), every call of the list toggles it:
    an acquisition only when it is not held, a release only when it is. -/
def alternatesFrom : Bool → List Bool → Bool
  | _, [] => true
  | held, a :: rest => (a != held) && alternatesFrom a rest

/-- The bytes that reached the mirror socket in a log: for each `::write` that
    accepted `ret > 0` bytes, the first `ret` bytes it was offered. -/
def mirrored (buffer : List Nat) : List Event → List Nat
  | [] => []
  | Event.sock_write _ off _ ret :: es =>
    (if 0 < ret then slice buffer off ret.toNat else []) ++ mirrored buffer es
  | _ :: es => mirrored buffer es

/-- The calls of a log that go to the device: `snd_pcm_writei`, the reopen and
    `snd_pcm_recover`. -/
def deviceCalls : List Event → List Event
  | [] => []
  | Event.snd_pcm_writei pcm off frames ret :: es =>
    Event.snd_pcm_writei pcm off frames ret :: deviceCalls es
  | Event.module_open dev mode :: es => Event.module_open dev mode :: deviceCalls es
  | Event.snd_pcm_recover pcm err ret :: es =>
    Event.snd_pcm_recover pcm err ret :: deviceCalls es
  | _ :: es => deviceCalls es

/-- The number of `snd_pcm_writei` calls in a log. -/
def deviceWrites : List Event → Nat
  | [] => 0
  | Event.snd_pcm_writei _ _ _ _ :: es => deviceWrites es + 1
  | _ :: es => deviceWrites es

/-- The number of reopen calls in a log. -/
def reopens : List Event → Nat
  | [] => 0
  | Event.module_open _ _ :: es => reopens es + 1
  | _ :: es => reopens es

/-- The number of `snd_pcm_recover` calls in a log. -/
def recoveries : List Event → Nat
  | [] => 0
  | Event.snd_pcm_recover _ _ _ :: es => recoveries es + 1
  | _ :: es => recoveries es

/-- The log without the calls on the mirror socket. -/
def nonSocket : List Event → List Event
  | [] => []
  | Event.sock_write _ _ _ _ :: es => nonSocket es
  | Event.sock_close _ :: es => nonSocket es
  | e :: es => e :: nonSocket es

/-- The stream as seen apart from the mirror: every member but the socket descriptor,
    the device world, and the log without the socket calls. -/
def offMirror (s : AudioStreamOutALSA σ τ) : AudioStreamOutALSA σ Unit :=
  { mHandle := s.mHandle, mFrameCount := s.mFrameCount, mPowerLock := s.mPowerLock,
    pcm_server_socket := 0, pcm := s.pcm, net := (), trace := nonSocket s.trace }

/-- The environment apart from the socket layer. -/
def Env.offMirror (E : Env σ τ) : Env σ Unit :=
  { frameSize := E.frameSize, acoustics := E.acoustics,
    snd_pcm_writei := E.snd_pcm_writei, snd_pcm_recover := E.snd_pcm_recover,
    snd_pcm_drain := E.snd_pcm_drain, module_open := E.module_open,
    ops_open := E.ops_open, ops_close := E.ops_close,
    sock_write := fun t _ _ _ => (0, t), sock_close := fun t _ => t }

/-- What a caller can observe of a finished `write` apart from the mirror: the return
    value and the stream apart from the mirror. -/
def writeView (out : WriteRet × AudioStreamOutALSA σ τ) :
    WriteRet × AudioStreamOutALSA σ Unit :=
  (out.1, offMirror out.2)

/-- The stream `s1` continues `s` by the calls `evs`: none of them touches the wake
    lock, the lock flag is unchanged, and the frame counter has advanced (modulo
    `2 ^ 32`) by the frames accepted in `evs`. -/
def Advances (s s1 : AudioStreamOutALSA σ τ) (evs : List Event) : Prop :=
  s1.trace = s.trace ++ evs ∧ s1.mPowerLock = s.mPowerLock ∧ wakeLog evs = [] ∧
  s1.mFrameCount % UINT32_MOD = (s.mFrameCount + framesAccepted evs) % UINT32_MOD

/-- Whether the lock is held after the wake-lock calls of a list, starting from
    `held`: the kind of the last call, if there is one. -/
def heldAfter : Bool → List Bool → Bool
  | held, [] => held
  | _, a :: rest => heldAfter a rest

/-- The wake-lock calls the power-lock rule prescribes for a call made with the flag
    at `held`: `write` acquires once when the lock is not held, `standby` and `close`
    release once when it is, nothing else happens. -/
def expectedWakeCalls (held : Bool) : Op → List Bool
  | .write _ _ _ _ => if held then [] else [true]
  | .standby => if held then [false] else []
  | .close => if held then [false] else []
  | .open_ _ => []
  | .setPCMServerSocket _ => []

/-- The flag the power-lock rule prescribes after a call made with the flag at
    `held`. -/
def expectedLockFlag (held : Bool) : Op → Bool
  | .write _ _ _ _ => true
  | .standby => false
  | .close => false
  | .open_ _ => held
  | .setPCMServerSocket _ => held

/-- A point inside a call of `write` on `s`, whether or not the call goes on to
    return: the stream at the top of pass `k` (counting from 0) of the mirror loop,
    when a client is connected and the loop gets that far. -/
def writeInMirror (E : Env σ τ) (buffer : List Nat) (bytes k : Nat)
    (s : AudioStreamOutALSA σ τ) : Option (AudioStreamOutALSA σ τ) :=
  if (notifyWrite E bytes (acquirePowerLock s)).pcm_server_socket ≠ 0 then
    (mirrorState E buffer bytes k 0 (notifyWrite E bytes (acquirePowerLock s))).map Prod.snd
  else none

/-- A point inside a call of `write` on `s`, whether or not the call goes on to
    return: the stream at the top of pass `k` (counting from 0) of the device loop,
    when the mirror section has finished (within `mfuel` passes) and the device loop
    gets that far. -/
def writeInDevice (E : Env σ τ) (buffer : List Nat) (bytes mfuel k : Nat)
    (s : AudioStreamOutALSA σ τ) : Option (AudioStreamOutALSA σ τ) :=
  match mirrorSection E buffer bytes mfuel (notifyWrite E bytes (acquirePowerLock s)) with
  | none => none
  | some s1 => (loopState E buffer bytes k 0 s1).map Prod.snd

/-- The stream the scenarios start from: valid handle, nothing rendered, lock not held,
    no mirror client, empty log. -/
def idleStream : AudioStreamOutALSA Unit Unit :=
  { mHandle := { handle := 1, curDev := 2, curMode := 0, latency := 1001 },
    mFrameCount := 0, mPowerLock := false, pcm_server_socket := 0,
    pcm := (), net := (), trace := [] }

/-- A well-behaved environment with `fs`-byte frames: the device accepts every frame it
    is offered, recovery succeeds, the socket accepts every byte it is offered, no
    acoustics module. -/
def idealEnv (fs : Nat) : Env Unit Unit :=
  { frameSize := fs, acoustics := none,
    snd_pcm_writei := fun w _ _ frames => ((frames : Int), w),
    snd_pcm_recover := fun w _ _ => (0, w),
    snd_pcm_drain := fun w _ => w,
    module_open := fun w h _ _ => (h, w),
    ops_open := fun w h _ => (0, h, w),
    ops_close := fun w h => ({ h with handle := 0 }, w),
    sock_write := fun t _ _ count => ((count : Int), t),
    sock_close := fun t _ => t }

/-- A scenario: two writes of one 4-byte frame each, then standby. -/
def lockScenario : List Op :=
  [.write [1, 2, 3, 4] 4 1 1, .write [5, 6, 7, 8] 4 1 1, .standby]

/-- The stream at the end of `lockScenario` run on `idealEnv 4` from `idleStream`. -/
def lockScenarioEnd : AudioStreamOutALSA Unit Unit :=
  { idleStream with
    trace := [Event.acquire_wake_lock, Event.snd_pcm_writei 1 0 1 1,
              Event.snd_pcm_writei 1 0 1 1, Event.snd_pcm_drain 1, Event.release_wake_lock] }

/-- A stream that has rendered `2 ^ 32 - 1` frames since it left standby. -/
def longPlayedStream : AudioStreamOutALSA Unit Unit :=
  { idleStream with mFrameCount := 4294967295 }

/-- As `idealEnv`, but the socket accepts one byte per non-empty `::write`. -/
def trickleEnv (fs : Nat) : Env Unit Unit :=
  { idealEnv fs with sock_write := fun t _ _ count => (if count = 0 then 0 else 1, t) }

/-- A scripted device: the world is the list of results `snd_pcm_writei` will give, one
    per call (then `0`); recovery yields `rec`; a reopen yields the handle pointer
    `reopened`; the acoustics module is present with both hooks. -/
def scriptedEnv (fs : Nat) (rec : Int) (reopened : Nat) : Env (List Int) Unit :=
  { frameSize := fs, acoustics := some { write := true, recover := true },
    snd_pcm_writei := fun w _ _ _ => (w.headD 0, w.tail),
    snd_pcm_recover := fun w _ _ => (rec, w),
    snd_pcm_drain := fun w _ => w,
    module_open := fun w h _ _ => ({ h with handle := reopened }, w),
    ops_open := fun w h _ => (0, h, w),
    ops_close := fun w h => ({ h with handle := 0 }, w),
    sock_write := fun t _ _ count => ((count : Int), t),
    sock_close := fun t _ => t }

/-- A stream over a scripted device. -/
def scriptedStream (script : List Int) (frames : Nat) : AudioStreamOutALSA (List Int) Unit :=
  { mHandle := { handle := 1, curDev := 2, curMode := 0, latency := 1001 },
    mFrameCount := frames, mPowerLock := false, pcm_server_socket := 0,
    pcm := script, net := (), trace := [] }


/-! ## Bookkeeping over logs -/

theorem framesAccepted_append (xs ys : List Event) :
    framesAccepted (xs ++ ys) = framesAccepted xs + framesAccepted ys := by
  induction xs with
  | nil => simp [framesAccepted]
  | cons e es ih => cases e <;> simp [framesAccepted, ih, Nat.add_assoc]

theorem wakeLog_append (xs ys : List Event) :
    wakeLog (xs ++ ys) = wakeLog xs ++ wakeLog ys := by
  induction xs with
  | nil => simp [wakeLog]
  | cons e es ih => cases e <;> simp [wakeLog, ih]

theorem deviceCalls_append (xs ys : List Event) :
    deviceCalls (xs ++ ys) = deviceCalls xs ++ deviceCalls ys := by
  induction xs with
  | nil => simp [deviceCalls]
  | cons e es ih => cases e <;> simp [deviceCalls, ih]

theorem deviceWrites_append (xs ys : List Event) :
    deviceWrites (xs ++ ys) = deviceWrites xs + deviceWrites ys := by
  induction xs with
  | nil => simp [deviceWrites]
  | cons e es ih => cases e <;> simp [deviceWrites, ih]; omega

theorem reopens_append (xs ys : List Event) :
    reopens (xs ++ ys) = reopens xs + reopens ys := by
  induction xs with
  | nil => simp [reopens]
  | cons e es ih => cases e <;> simp [reopens, ih]; omega

theorem recoveries_append (xs ys : List Event) :
    recoveries (xs ++ ys) = recoveries xs + recoveries ys := by
  induction xs with
  | nil => simp [recoveries]
  | cons e es ih => cases e <;> simp [recoveries, ih]; omega

theorem mirrored_append (buffer : List Nat) (xs ys : List Event) :
    mirrored buffer (xs ++ ys) = mirrored buffer xs ++ mirrored buffer ys := by
  induction xs with
  | nil => simp [mirrored]
  | cons e es ih => cases e <;> simp [mirrored, ih]

theorem recoverHook_quiet (E : Env σ τ) (n : Int) :
    framesAccepted (recoverHook E n) = 0 ∧ wakeLog (recoverHook E n) = [] ∧
    deviceCalls (recoverHook E n) = [] ∧ deviceWrites (recoverHook E n) = 0 ∧
    reopens (recoverHook E n) = 0 ∧ recoveries (recoverHook E n) = 0 := by
  unfold recoverHook
  cases E.acoustics with
  | none => simp [framesAccepted, wakeLog, deviceCalls, deviceWrites, reopens, recoveries]
  | some a =>
    by_cases h : a.recover = true <;>
      simp [h, framesAccepted, wakeLog, deviceCalls, deviceWrites, reopens, recoveries]

theorem writeHook_quiet (E : Env σ τ) (n : Nat) :
    framesAccepted (writeHook E n) = 0 ∧ wakeLog (writeHook E n) = [] ∧
    deviceCalls (writeHook E n) = [] := by
  unfold writeHook
  cases E.acoustics with
  | none => simp [framesAccepted, wakeLog, deviceCalls]
  | some a => by_cases h : a.write = true <;> simp [h, framesAccepted, wakeLog, deviceCalls]

/-! ## One pass of the device loop, case by case -/

/-- Pass on which `snd_pcm_writei` reports the bad-state fault. -/
theorem writeIter_badfd (E : Env σ τ) (buffer : List Nat) (bytes sent : Nat)
    (s : AudioStreamOutALSA σ τ)
    (hbad : (writeiAt E buffer bytes sent s).1 = -EBADFD) :
    writeIter E buffer bytes sent s =
      .next sent
        { s with
          mHandle := (E.module_open (writeiAt E buffer bytes sent s).2 s.mHandle
                        s.mHandle.curDev s.mHandle.curMode).1,
          pcm := (E.module_open (writeiAt E buffer bytes sent s).2 s.mHandle
                        s.mHandle.curDev s.mHandle.curMode).2,
          trace := s.trace ++
            ([Event.snd_pcm_writei s.mHandle.handle sent (offeredFrames E bytes sent) (-EBADFD),
              Event.module_open s.mHandle.curDev s.mHandle.curMode] ++
             recoverHook E (-EBADFD)) } := by
  simp [writeIter, hbad, notifyRecover]

/-- Pass on which `snd_pcm_writei` reports another fault while the handle is valid. -/
theorem writeIter_fault (E : Env σ τ) (buffer : List Nat) (bytes sent : Nat)
    (s : AudioStreamOutALSA σ τ)
    (hneg : (writeiAt E buffer bytes sent s).1 < 0)
    (hne : (writeiAt E buffer bytes sent s).1 ≠ -EBADFD)
    (hvalid : s.mHandle.handle ≠ 0) :
    writeIter E buffer bytes sent s =
      (if (E.snd_pcm_recover (writeiAt E buffer bytes sent s).2 s.mHandle.handle
            (writeiAt E buffer bytes sent s).1).1 ≠ 0 then
        Iter.ret (E.snd_pcm_recover (writeiAt E buffer bytes sent s).2 s.mHandle.handle
            (writeiAt E buffer bytes sent s).1).1
       else Iter.next sent)
        { s with
          pcm := (E.snd_pcm_recover (writeiAt E buffer bytes sent s).2 s.mHandle.handle
                    (writeiAt E buffer bytes sent s).1).2,
          trace := s.trace ++
            ([Event.snd_pcm_writei s.mHandle.handle sent (offeredFrames E bytes sent)
                (writeiAt E buffer bytes sent s).1,
              Event.snd_pcm_recover s.mHandle.handle (writeiAt E buffer bytes sent s).1
                (E.snd_pcm_recover (writeiAt E buffer bytes sent s).2 s.mHandle.handle
                  (writeiAt E buffer bytes sent s).1).1] ++
             recoverHook E (E.snd_pcm_recover (writeiAt E buffer bytes sent s).2
                  s.mHandle.handle (writeiAt E buffer bytes sent s).1).1) } := by
  simp only [writeIter, notifyRecover, if_neg hne, if_pos hneg, if_pos hvalid]
  split <;> simp

/-- Pass on which `snd_pcm_writei` reports another fault while the handle is null. -/
theorem writeIter_fault_null (E : Env σ τ) (buffer : List Nat) (bytes sent : Nat)
    (s : AudioStreamOutALSA σ τ)
    (hneg : (writeiAt E buffer bytes sent s).1 < 0)
    (hne : (writeiAt E buffer bytes sent s).1 ≠ -EBADFD)
    (hnull : s.mHandle.handle = 0) :
    writeIter E buffer bytes sent s =
      .next sent
        { s with
          pcm := (writeiAt E buffer bytes sent s).2,
          trace := s.trace ++
            [Event.snd_pcm_writei s.mHandle.handle sent (offeredFrames E bytes sent)
                (writeiAt E buffer bytes sent s).1] } := by
  simp [writeIter, if_neg hne, if_pos hneg, hnull]

/-- Pass on which `snd_pcm_writei` accepts frames. -/
theorem writeIter_accept (E : Env σ τ) (buffer : List Nat) (bytes sent : Nat)
    (s : AudioStreamOutALSA σ τ)
    (hpos : 0 ≤ (writeiAt E buffer bytes sent s).1) :
    writeIter E buffer bytes sent s =
      .next (sent + (writeiAt E buffer bytes sent s).1.toNat * E.frameSize)
        { s with
          pcm := (writeiAt E buffer bytes sent s).2,
          mFrameCount := (s.mFrameCount + (writeiAt E buffer bytes sent s).1.toNat) % UINT32_MOD,
          trace := s.trace ++
            [Event.snd_pcm_writei s.mHandle.handle sent (offeredFrames E bytes sent)
                (writeiAt E buffer bytes sent s).1] } := by
  have hne : (writeiAt E buffer bytes sent s).1 ≠ -EBADFD := by
    intro h; rw [h] at hpos; simp [EBADFD] at hpos
  have hnn : ¬ (writeiAt E buffer bytes sent s).1 < 0 := by omega
  have hb : (snd_pcm_frames_to_bytes E.frameSize (writeiAt E buffer bytes sent s).1).toNat =
      (writeiAt E buffer bytes sent s).1.toNat * E.frameSize := by
    unfold snd_pcm_frames_to_bytes
    obtain ⟨k, hk⟩ := Int.eq_ofNat_of_zero_le hpos
    rw [hk, ← Nat.cast_mul, Int.toNat_natCast, Int.toNat_natCast]
  simp only [writeIter, if_neg hne, if_neg hnn, hb]


/-! ## The device loop: unfolding, bounds, induction -/

theorem deviceLoop_succ (E : Env σ τ) (buffer : List Nat) (bytes fuel sent : Nat)
    (s : AudioStreamOutALSA σ τ) :
    deviceLoop E buffer bytes (fuel + 1) sent s =
      match writeIter E buffer bytes sent s with
      | .ret code s1 => some (.error code, s1)
      | .next sent1 s1 =>
        if s1.mHandle.handle ≠ 0 ∧ sent1 < bytes then deviceLoop E buffer bytes fuel sent1 s1
        else some (.count sent1, s1) := rfl

/-- Induction over a finished run of the device loop. -/
theorem deviceLoop_induct (E : Env σ τ) (buffer : List Nat) (bytes : Nat)
    (P : Nat → AudioStreamOutALSA σ τ → WriteRet × AudioStreamOutALSA σ τ → Prop)
    (hret : ∀ sent s code s1, writeIter E buffer bytes sent s = .ret code s1 →
      P sent s (.error code, s1))
    (hexit : ∀ sent s sent1 s1, writeIter E buffer bytes sent s = .next sent1 s1 →
      ¬ (s1.mHandle.handle ≠ 0 ∧ sent1 < bytes) → P sent s (.count sent1, s1))
    (hcont : ∀ sent s sent1 s1 out, writeIter E buffer bytes sent s = .next sent1 s1 →
      (s1.mHandle.handle ≠ 0 ∧ sent1 < bytes) → P sent1 s1 out → P sent s out) :
    ∀ fuel sent s out, deviceLoop E buffer bytes fuel sent s = some out → P sent s out := by
  intro fuel
  induction fuel with
  | zero => intro sent s out h; simp [deviceLoop] at h
  | succ fuel ih =>
    intro sent s out h
    rw [deviceLoop_succ] at h
    cases hw : writeIter E buffer bytes sent s with
    | ret code s1 =>
      rw [hw] at h
      simp only [Option.some.injEq] at h
      rw [← h]
      exact hret sent s code s1 hw
    | next sent1 s1 =>
      rw [hw] at h
      by_cases hc : s1.mHandle.handle ≠ 0 ∧ sent1 < bytes
      · simp only [if_pos hc] at h
        exact hcont sent s sent1 s1 out hw hc (ih sent1 s1 out h)
      · simp only [if_neg hc, Option.some.injEq] at h
        rw [← h]
        exact hexit sent s sent1 s1 hw hc

/-- A finished run of the device loop is not changed by a larger bound. -/
theorem deviceLoop_mono (E : Env σ τ) (buffer : List Nat) (bytes : Nat) :
    ∀ fuel extra sent s out, deviceLoop E buffer bytes fuel sent s = some out →
      deviceLoop E buffer bytes (fuel + extra) sent s = some out := by
  intro fuel
  induction fuel with
  | zero => intro extra sent s out h; simp [deviceLoop] at h
  | succ fuel ih =>
    intro extra sent s out h
    have e : fuel + 1 + extra = (fuel + extra) + 1 := by omega
    rw [e, deviceLoop_succ]
    rw [deviceLoop_succ] at h
    cases hw : writeIter E buffer bytes sent s with
    | ret code s1 => rw [hw] at h; exact h
    | next sent1 s1 =>
      rw [hw] at h
      by_cases hc : s1.mHandle.handle ≠ 0 ∧ sent1 < bytes
      · simp only [if_pos hc] at h ⊢
        exact ih extra sent1 s1 out h
      · simp only [if_neg hc] at h ⊢
        exact h

/-- From the top of pass `k` the loop behaves as a loop started there. -/
theorem deviceLoop_of_loopState (E : Env σ τ) (buffer : List Nat) (bytes : Nat) :
    ∀ k sent s sent1 s1 fuel, loopState E buffer bytes k sent s = some (sent1, s1) →
      deviceLoop E buffer bytes (k + fuel) sent s = deviceLoop E buffer bytes fuel sent1 s1 := by
  intro k
  induction k with
  | zero =>
    intro sent s sent1 s1 fuel h
    simp only [loopState, Option.some.injEq, Prod.mk.injEq] at h
    rw [h.1, h.2, Nat.zero_add]
  | succ k ih =>
    intro sent s sent1 s1 fuel h
    have e : k + 1 + fuel = (k + fuel) + 1 := by omega
    rw [e, deviceLoop_succ]
    simp only [loopState] at h
    cases hw : writeIter E buffer bytes sent s with
    | ret code s2 => rw [hw] at h; simp at h
    | next sent2 s2 =>
      rw [hw] at h
      by_cases hc : s2.mHandle.handle ≠ 0 ∧ sent2 < bytes
      · simp only [if_pos hc] at h ⊢
        exact ih sent2 s2 sent1 s1 fuel h
      · simp only [if_neg hc] at h
        simp at h

/-! ## Accounting -/

theorem Advances.refl (s : AudioStreamOutALSA σ τ) : Advances s s [] := by
  simp [Advances, wakeLog, framesAccepted]

theorem Advances.trans {s s1 s2 : AudioStreamOutALSA σ τ} {e1 e2 : List Event}
    (h1 : Advances s s1 e1) (h2 : Advances s1 s2 e2) : Advances s s2 (e1 ++ e2) := by
  obtain ⟨t1, p1, w1, f1⟩ := h1
  obtain ⟨t2, p2, w2, f2⟩ := h2
  refine ⟨by rw [t2, t1, List.append_assoc], by rw [p2, p1], by rw [wakeLog_append, w1, w2]; rfl, ?_⟩
  rw [f2, framesAccepted_append, Nat.add_mod, f1, ← Nat.add_mod, Nat.add_assoc]

/-- One pass of the loop body: what it adds to the log, the counter and `sent`. -/
theorem writeIter_advances (E : Env σ τ) (buffer : List Nat) (bytes sent : Nat)
    (s : AudioStreamOutALSA σ τ) :
    (∀ code s1, writeIter E buffer bytes sent s = .ret code s1 →
      ∃ evs, Advances s s1 evs ∧ framesAccepted evs = 0 ∧ s1.mFrameCount = s.mFrameCount) ∧
    (∀ sent1 s1, writeIter E buffer bytes sent s = .next sent1 s1 →
      ∃ evs, Advances s s1 evs ∧ sent1 = sent + framesAccepted evs * E.frameSize) := by
  have hq := recoverHook_quiet E
  by_cases hbad : (writeiAt E buffer bytes sent s).1 = -EBADFD
  · rw [writeIter_badfd E buffer bytes sent s hbad]
    refine ⟨fun code s1 h => by simp at h, fun sent1 s1 h => ?_⟩
    simp only [Iter.next.injEq] at h
    obtain ⟨h1, h2⟩ := h
    subst h1 h2
    refine ⟨_, ⟨rfl, rfl, ?_, ?_⟩, ?_⟩
    · simp [wakeLog, (hq _).2.1]
    · simp [framesAccepted, framesAccepted_append, (hq _).1, EBADFD]
    · simp [framesAccepted, framesAccepted_append, (hq _).1, EBADFD]
  · by_cases hneg : (writeiAt E buffer bytes sent s).1 < 0
    · have hnn : ¬ 0 ≤ (writeiAt E buffer bytes sent s).1 := by omega
      by_cases hvalid : s.mHandle.handle ≠ 0
      · rw [writeIter_fault E buffer bytes sent s hneg hbad hvalid]
        constructor
        · intro code s1 h
          split at h
          · simp only [Iter.ret.injEq] at h
            obtain ⟨_, h2⟩ := h
            subst h2
            refine ⟨_, ⟨rfl, rfl, ?_, ?_⟩, ?_, rfl⟩
            · simp [wakeLog, (hq _).2.1]
            · simp [framesAccepted, framesAccepted_append, (hq _).1, hnn]
            · simp [framesAccepted, framesAccepted_append, (hq _).1, hnn]
          · simp at h
        · intro sent1 s1 h
          split at h
          · simp at h
          · simp only [Iter.next.injEq] at h
            obtain ⟨h1, h2⟩ := h
            subst h1 h2
            refine ⟨_, ⟨rfl, rfl, ?_, ?_⟩, ?_⟩
            · simp [wakeLog, (hq _).2.1]
            · simp [framesAccepted, framesAccepted_append, (hq _).1, hnn]
            · simp [framesAccepted, framesAccepted_append, (hq _).1, hnn]
      · rw [writeIter_fault_null E buffer bytes sent s hneg hbad (by simpa using hvalid)]
        refine ⟨fun code s1 h => by simp at h, fun sent1 s1 h => ?_⟩
        simp only [Iter.next.injEq] at h
        obtain ⟨h1, h2⟩ := h
        subst h1 h2
        refine ⟨_, ⟨rfl, rfl, ?_, ?_⟩, ?_⟩
        · simp [wakeLog]
        · simp [framesAccepted, hnn]
        · simp [framesAccepted, hnn]
    · have hpos : 0 ≤ (writeiAt E buffer bytes sent s).1 := by omega
      rw [writeIter_accept E buffer bytes sent s hpos]
      refine ⟨fun code s1 h => by simp at h, fun sent1 s1 h => ?_⟩
      simp only [Iter.next.injEq] at h
      obtain ⟨h1, h2⟩ := h
      subst h1 h2
      refine ⟨_, ⟨rfl, rfl, ?_, ?_⟩, ?_⟩
      · simp [wakeLog]
      · simp [framesAccepted, hpos]
      · simp [framesAccepted, hpos]

/-- A finished run of the device loop: what it adds to the log, the counter and (when
    it leaves through `return sent`) the bytes sent. -/
theorem deviceLoop_advances (E : Env σ τ) (buffer : List Nat) (bytes : Nat) :
    ∀ fuel sent s out, deviceLoop E buffer bytes fuel sent s = some out →
      ∃ evs, Advances s out.2 evs ∧
        ∀ k, out.1 = .count k → k = sent + framesAccepted evs * E.frameSize := by
  apply deviceLoop_induct
  · intro sent s code s1 hw
    obtain ⟨evs, ha, _, _⟩ := (writeIter_advances E buffer bytes sent s).1 code s1 hw
    exact ⟨evs, ha, fun k hk => by simp at hk⟩
  · intro sent s sent1 s1 hw _
    obtain ⟨evs, ha, hs⟩ := (writeIter_advances E buffer bytes sent s).2 sent1 s1 hw
    refine ⟨evs, ha, fun k hk => ?_⟩
    simp only [WriteRet.count.injEq] at hk
    omega
  · intro sent s sent1 s1 out hw _ ⟨evs2, ha2, hk2⟩
    obtain ⟨evs, ha, hs⟩ := (writeIter_advances E buffer bytes sent s).2 sent1 s1 hw
    refine ⟨evs ++ evs2, ha.trans ha2, fun k hk => ?_⟩
    rw [hk2 k hk, hs, framesAccepted_append]
    ring


/-! ## The prologue and the mirror section -/

theorem acquirePowerLock_spec (s : AudioStreamOutALSA σ τ) :
    (acquirePowerLock s).mPowerLock = true ∧
    (acquirePowerLock s).mFrameCount = s.mFrameCount ∧
    ∃ evs, (acquirePowerLock s).trace = s.trace ++ evs ∧
      wakeLog evs = (if s.mPowerLock then [] else [true]) ∧ framesAccepted evs = 0 := by
  unfold acquirePowerLock
  by_cases h : s.mPowerLock = true
  · rw [if_pos h, if_pos h]
    exact ⟨h, rfl, [], by simp, by simp [wakeLog], rfl⟩
  · rw [if_neg h, if_neg h]
    exact ⟨rfl, rfl, [Event.acquire_wake_lock], rfl, by simp [wakeLog], rfl⟩

theorem releasePowerLock_spec (s : AudioStreamOutALSA σ τ) :
    (releasePowerLock s).mPowerLock = false ∧
    (releasePowerLock s).mFrameCount = s.mFrameCount ∧
    ∃ evs, (releasePowerLock s).trace = s.trace ++ evs ∧
      wakeLog evs = (if s.mPowerLock then [false] else []) ∧ framesAccepted evs = 0 := by
  unfold releasePowerLock
  by_cases h : s.mPowerLock = true
  · rw [if_pos h, if_pos h]
    exact ⟨rfl, rfl, [Event.release_wake_lock], rfl, by simp [wakeLog], rfl⟩
  · rw [if_neg h, if_neg h]
    exact ⟨by simpa using h, rfl, [], by simp, by simp [wakeLog], rfl⟩

theorem notifyWrite_advances (E : Env σ τ) (bytes : Nat) (s : AudioStreamOutALSA σ τ) :
    Advances s (notifyWrite E bytes s) (writeHook E bytes) := by
  refine ⟨rfl, rfl, (writeHook_quiet E bytes).2.1, ?_⟩
  rw [(writeHook_quiet E bytes).1]
  rfl

theorem mirrorLoop_succ (E : Env σ τ) (buffer : List Nat) (bytes fuel : Nat) (pcm_sent : Int)
    (s : AudioStreamOutALSA σ τ) :
    mirrorLoop E buffer bytes (fuel + 1) pcm_sent s =
      if 0 < (E.sock_write s.net s.pcm_server_socket
                (slice buffer pcm_sent.toNat (bytes - pcm_sent.toNat))
                (bytes - pcm_sent.toNat)).1 then
        mirrorLoop E buffer bytes fuel
          (E.sock_write s.net s.pcm_server_socket
                (slice buffer pcm_sent.toNat (bytes - pcm_sent.toNat))
                (bytes - pcm_sent.toNat)).1
          { s with
            net := (E.sock_write s.net s.pcm_server_socket
                (slice buffer pcm_sent.toNat (bytes - pcm_sent.toNat))
                (bytes - pcm_sent.toNat)).2,
            trace := s.trace ++ [Event.sock_write s.pcm_server_socket pcm_sent.toNat
                (bytes - pcm_sent.toNat)
                (E.sock_write s.net s.pcm_server_socket
                  (slice buffer pcm_sent.toNat (bytes - pcm_sent.toNat))
                  (bytes - pcm_sent.toNat)).1] }
      else
        some { s with
            net := (E.sock_write s.net s.pcm_server_socket
                (slice buffer pcm_sent.toNat (bytes - pcm_sent.toNat))
                (bytes - pcm_sent.toNat)).2,
            trace := s.trace ++ [Event.sock_write s.pcm_server_socket pcm_sent.toNat
                (bytes - pcm_sent.toNat)
                (E.sock_write s.net s.pcm_server_socket
                  (slice buffer pcm_sent.toNat (bytes - pcm_sent.toNat))
                  (bytes - pcm_sent.toNat)).1] } := rfl

theorem nonSocket_append (xs ys : List Event) :
    nonSocket (xs ++ ys) = nonSocket xs ++ nonSocket ys := by
  induction xs with
  | nil => simp [nonSocket]
  | cons e es ih => cases e <;> simp [nonSocket, ih]

theorem advances_sock_write (s : AudioStreamOutALSA σ τ) (t : τ) (fd : Int) (off len : Nat)
    (ret : Int) :
    Advances s { s with net := t, trace := s.trace ++ [Event.sock_write fd off len ret] }
      [Event.sock_write fd off len ret] :=
  ⟨rfl, rfl, by simp [wakeLog], by simp [framesAccepted]⟩

/-- A finished mirror loop changes nothing apart from the mirror, and touches neither
    the wake lock nor the frame counter. -/
theorem mirrorLoop_spec (E : Env σ τ) (buffer : List Nat) (bytes : Nat) :
    ∀ fuel pcm_sent s s1, mirrorLoop E buffer bytes fuel pcm_sent s = some s1 →
      offMirror s1 = offMirror s ∧ ∃ evs, Advances s s1 evs ∧ framesAccepted evs = 0 := by
  intro fuel
  induction fuel with
  | zero => intro pcm_sent s s1 h; simp [mirrorLoop] at h
  | succ fuel ih =>
    intro pcm_sent s s1 h
    rw [mirrorLoop_succ] at h
    split at h
    · obtain ⟨ho, evs, ha, hf⟩ := ih _ _ _ h
      refine ⟨?_, _, Advances.trans (advances_sock_write _ _ _ _ _ _) ha, ?_⟩
      · rw [ho]; simp [offMirror, nonSocket_append, nonSocket]
      · simp [framesAccepted_append, framesAccepted, hf]
    · simp only [Option.some.injEq] at h
      subst h
      refine ⟨?_, _, advances_sock_write _ _ _ _ _ _, ?_⟩
      · simp [offMirror, nonSocket_append, nonSocket]
      · simp [framesAccepted]

theorem mirrorSection_spec (E : Env σ τ) (buffer : List Nat) (bytes mfuel : Nat)
    (s s1 : AudioStreamOutALSA σ τ) (h : mirrorSection E buffer bytes mfuel s = some s1) :
    offMirror s1 = offMirror s ∧ ∃ evs, Advances s s1 evs ∧ framesAccepted evs = 0 := by
  unfold mirrorSection at h
  split at h
  · exact mirrorLoop_spec E buffer bytes mfuel 0 s s1 h
  · simp only [Option.some.injEq] at h
    subst h
    exact ⟨rfl, [], Advances.refl _, rfl⟩

/-- A finished mirror loop is not changed by a larger bound. -/
theorem mirrorLoop_mono (E : Env σ τ) (buffer : List Nat) (bytes : Nat) :
    ∀ fuel extra pcm_sent s s1, mirrorLoop E buffer bytes fuel pcm_sent s = some s1 →
      mirrorLoop E buffer bytes (fuel + extra) pcm_sent s = some s1 := by
  intro fuel
  induction fuel with
  | zero => intro extra pcm_sent s s1 h; simp [mirrorLoop] at h
  | succ fuel ih =>
    intro extra pcm_sent s s1 h
    have e : fuel + 1 + extra = (fuel + extra) + 1 := by omega
    rw [e, mirrorLoop_succ]
    rw [mirrorLoop_succ] at h
    split
    · rename_i hc
      rw [if_pos hc] at h
      exact ih extra _ _ s1 h
    · rename_i hc
      rw [if_neg hc] at h
      exact h

/-- Unfolding of `write` once the mirror section is known to finish. -/
theorem write_of_mirrorSection (E : Env σ τ) (buffer : List Nat) (bytes mfuel dfuel : Nat)
    (s s1 : AudioStreamOutALSA σ τ)
    (h : mirrorSection E buffer bytes mfuel (notifyWrite E bytes (acquirePowerLock s)) = some s1) :
    write E buffer bytes mfuel dfuel s = deviceLoop E buffer bytes dfuel 0 s1 := by
  simp [write, h]

/-- A returned `write` went through a finished mirror section. -/
theorem write_some (E : Env σ τ) (buffer : List Nat) (bytes mfuel dfuel : Nat)
    (s : AudioStreamOutALSA σ τ) (out : WriteRet × AudioStreamOutALSA σ τ)
    (h : write E buffer bytes mfuel dfuel s = some out) :
    ∃ s1, mirrorSection E buffer bytes mfuel (notifyWrite E bytes (acquirePowerLock s)) = some s1 ∧
      deviceLoop E buffer bytes dfuel 0 s1 = some out := by
  unfold write at h
  cases hm : mirrorSection E buffer bytes mfuel (notifyWrite E bytes (acquirePowerLock s)) with
  | none => rw [hm] at h; simp at h
  | some s1 => rw [hm] at h; exact ⟨s1, rfl, h⟩


/-! ## Shape of one pass -/

/-- A pass that returns early is a failed recovery: the device write failed with a
    fault other than the bad state, the handle was valid, and the recovery result is
    the nonzero code returned. -/
theorem writeIter_ret (E : Env σ τ) (buffer : List Nat) (bytes sent : Nat)
    (s s1 : AudioStreamOutALSA σ τ) (code : Int)
    (h : writeIter E buffer bytes sent s = .ret code s1) :
    (writeiAt E buffer bytes sent s).1 < 0 ∧ (writeiAt E buffer bytes sent s).1 ≠ -EBADFD ∧
    s.mHandle.handle ≠ 0 ∧ code ≠ 0 ∧
    code = (E.snd_pcm_recover (writeiAt E buffer bytes sent s).2 s.mHandle.handle
              (writeiAt E buffer bytes sent s).1).1 ∧
    s1.mHandle = s.mHandle ∧ s1.mFrameCount = s.mFrameCount ∧
    s1.trace = s.trace ++
      ([Event.snd_pcm_writei s.mHandle.handle sent (offeredFrames E bytes sent)
          (writeiAt E buffer bytes sent s).1,
        Event.snd_pcm_recover s.mHandle.handle (writeiAt E buffer bytes sent s).1 code] ++
       recoverHook E code) := by
  by_cases hbad : (writeiAt E buffer bytes sent s).1 = -EBADFD
  · rw [writeIter_badfd E buffer bytes sent s hbad] at h; simp at h
  · by_cases hneg : (writeiAt E buffer bytes sent s).1 < 0
    · by_cases hvalid : s.mHandle.handle ≠ 0
      · rw [writeIter_fault E buffer bytes sent s hneg hbad hvalid] at h
        split at h
        · rename_i hr
          simp only [Iter.ret.injEq] at h
          obtain ⟨h1, h2⟩ := h
          subst h2
          refine ⟨hneg, hbad, hvalid, ?_, h1.symm, rfl, rfl, ?_⟩
          · rw [← h1]; exact hr
          · rw [← h1]
        · simp at h
      · rw [writeIter_fault_null E buffer bytes sent s hneg hbad (by simpa using hvalid)] at h
        simp at h
    · rw [writeIter_accept E buffer bytes sent s (by omega)] at h; simp at h

/-- A pass that reaches the loop condition either left `sent` alone or accepted frames
    and advanced it by their bytes, in which case the handle record is untouched. -/
theorem writeIter_next (E : Env σ τ) (buffer : List Nat) (bytes sent sent1 : Nat)
    (s s1 : AudioStreamOutALSA σ τ)
    (h : writeIter E buffer bytes sent s = .next sent1 s1) :
    ((writeiAt E buffer bytes sent s).1 < 0 ∧ sent1 = sent) ∨
    (0 ≤ (writeiAt E buffer bytes sent s).1 ∧
      sent1 = sent + (writeiAt E buffer bytes sent s).1.toNat * E.frameSize ∧
      s1.mHandle = s.mHandle) := by
  by_cases hbad : (writeiAt E buffer bytes sent s).1 = -EBADFD
  · rw [writeIter_badfd E buffer bytes sent s hbad] at h
    simp only [Iter.next.injEq] at h
    left
    exact ⟨by rw [hbad]; simp [EBADFD], h.1.symm⟩
  · by_cases hneg : (writeiAt E buffer bytes sent s).1 < 0
    · left
      refine ⟨hneg, ?_⟩
      by_cases hvalid : s.mHandle.handle ≠ 0
      · rw [writeIter_fault E buffer bytes sent s hneg hbad hvalid] at h
        split at h
        · simp at h
        · simp only [Iter.next.injEq] at h; exact h.1.symm
      · rw [writeIter_fault_null E buffer bytes sent s hneg hbad (by simpa using hvalid)] at h
        simp only [Iter.next.injEq] at h; exact h.1.symm
    · right
      have hpos : 0 ≤ (writeiAt E buffer bytes sent s).1 := by omega
      rw [writeIter_accept E buffer bytes sent s hpos] at h
      simp only [Iter.next.injEq] at h
      obtain ⟨h1, h2⟩ := h
      subst h2
      exact ⟨hpos, h1.symm, rfl⟩

/-- Every pass opens with the device write at offset `sent` for the frames that fit in
    the unsent remainder. -/
theorem writeIter_first_call (E : Env σ τ) (buffer : List Nat) (bytes sent : Nat)
    (s : AudioStreamOutALSA σ τ) :
    ∃ rest, (writeIter E buffer bytes sent s).state.trace =
      s.trace ++ Event.snd_pcm_writei s.mHandle.handle sent (offeredFrames E bytes sent)
        (writeiAt E buffer bytes sent s).1 :: rest := by
  by_cases hbad : (writeiAt E buffer bytes sent s).1 = -EBADFD
  · rw [writeIter_badfd E buffer bytes sent s hbad, hbad]
    exact ⟨_, rfl⟩
  · by_cases hneg : (writeiAt E buffer bytes sent s).1 < 0
    · by_cases hvalid : s.mHandle.handle ≠ 0
      · rw [writeIter_fault E buffer bytes sent s hneg hbad hvalid]
        split <;> exact ⟨_, rfl⟩
      · rw [writeIter_fault_null E buffer bytes sent s hneg hbad (by simpa using hvalid)]
        exact ⟨_, rfl⟩
    · rw [writeIter_accept E buffer bytes sent s (by omega)]
      exact ⟨_, rfl⟩

/-- With a device that accepts no more than it is offered, `sent` never passes
    `bytes`. -/
theorem writeIter_within (E : Env σ τ) (buffer : List Nat) (bytes sent sent1 : Nat)
    (s s1 : AudioStreamOutALSA σ τ)
    (hdev : ∀ w pcm data frames, (E.snd_pcm_writei w pcm data frames).1 ≤ frames)
    (hle : sent ≤ bytes)
    (h : writeIter E buffer bytes sent s = .next sent1 s1) : sent1 ≤ bytes := by
  rcases writeIter_next E buffer bytes sent sent1 s s1 h with ⟨_, h1⟩ | ⟨hpos, h1, _⟩
  · omega
  · have hn : (writeiAt E buffer bytes sent s).1 ≤ (offeredFrames E bytes sent : Int) :=
      hdev _ _ _ _
    have hk : (writeiAt E buffer bytes sent s).1.toNat ≤ offeredFrames E bytes sent := by
      omega
    have hm : offeredFrames E bytes sent * E.frameSize ≤ bytes - sent :=
      Nat.div_mul_le_self _ _
    have := Nat.mul_le_mul_right E.frameSize hk
    omega

/-- C1 at the level of the loop. -/
theorem deviceLoop_full_count_or_error (E : Env σ τ) (buffer : List Nat) (bytes : Nat)
    (hdev : ∀ w pcm data frames, (E.snd_pcm_writei w pcm data frames).1 ≤ frames)
    (hrec : ∀ w pcm err, (E.snd_pcm_recover w pcm err).1 ≤ 0) :
    ∀ fuel sent s out, deviceLoop E buffer bytes fuel sent s = some out → sent ≤ bytes →
      out.1 = .count bytes ∨
      (∃ code, out.1 = .error code ∧ code < 0 ∧
        ∃ pre pcm err, out.2.trace =
          pre ++ (Event.snd_pcm_recover pcm err code :: recoverHook E code)) ∨
      (∃ k, out.1 = .count k ∧ k < bytes ∧ out.2.mHandle.handle = 0) := by
  apply deviceLoop_induct
  · intro sent s code s1 hw _
    obtain ⟨_, _, _, hc, hcode, _, _, ht⟩ := writeIter_ret E buffer bytes sent s s1 code hw
    right; left
    refine ⟨code, rfl, ?_,
      s.trace ++ [Event.snd_pcm_writei s.mHandle.handle sent (offeredFrames E bytes sent)
          (writeiAt E buffer bytes sent s).1],
      s.mHandle.handle, (writeiAt E buffer bytes sent s).1, ?_⟩
    · have := hrec (writeiAt E buffer bytes sent s).2 s.mHandle.handle
        (writeiAt E buffer bytes sent s).1
      omega
    · show s1.trace = _
      rw [ht]
      simp
  · intro sent s sent1 s1 hw hc hle
    have h1 := writeIter_within E buffer bytes sent sent1 s s1 hdev hle hw
    by_cases he : sent1 = bytes
    · left; rw [he]
    · right; right
      refine ⟨sent1, rfl, by omega, ?_⟩
      by_contra hv
      exact hc ⟨hv, by omega⟩
  · intro sent s sent1 s1 out _ hc ih _
    exact ih (by omega)

/-- C1.  Whenever `write` returns, with a device that accepts no more frames than it
    is offered and a recovery that yields 0 or a negative code, the result is the full
    requested byte count, or the (negative, hence nonzero) code of the failed recovery
    that ended the call, or a byte count below the request with the device handle null
    at loop exit. -/
theorem write_full_count_or_error (E : Env σ τ) (buffer : List Nat)
    (bytes mfuel dfuel : Nat) (s : AudioStreamOutALSA σ τ)
    (out : WriteRet × AudioStreamOutALSA σ τ)
    (hdev : ∀ w pcm data frames, (E.snd_pcm_writei w pcm data frames).1 ≤ frames)
    (hrec : ∀ w pcm err, (E.snd_pcm_recover w pcm err).1 ≤ 0)
    (hout : write E buffer bytes mfuel dfuel s = some out) :
    (out.1 = .count bytes ∧ out.1.toSsize = bytes) ∨
    (∃ code, out.1 = .error code ∧ out.1.toSsize = code ∧ code < 0 ∧
      ∃ pre pcm err, out.2.trace =
        pre ++ (Event.snd_pcm_recover pcm err code :: recoverHook E code)) ∨
    (∃ k, out.1 = .count k ∧ k < bytes ∧ out.2.mHandle.handle = 0) := by
  obtain ⟨s1, _, hl⟩ := write_some E buffer bytes mfuel dfuel s out hout
  rcases deviceLoop_full_count_or_error E buffer bytes hdev hrec dfuel 0 s1 out hl
    (Nat.zero_le _) with h | ⟨code, h1, h2, h3⟩ | h
  · left; exact ⟨h, by rw [h]; rfl⟩
  · right; left; exact ⟨code, h1, by rw [h1]; rfl, h2, h3⟩
  · right; right; exact h

/-- C1, witness: a full write of two 4-byte frames on the well-behaved device. -/
theorem write_full_count_or_error_witness :
    write (idealEnv 4) [1, 2, 3, 4, 5, 6, 7, 8] 8 1 1 idleStream =
      some (.count 8,
        { idleStream with
          mFrameCount := 2, mPowerLock := true,
          trace := [Event.acquire_wake_lock, Event.snd_pcm_writei 1 0 2 2] }) ∧
    ((WriteRet.count 8 = .count 8 ∧ (WriteRet.count 8).toSsize = (8 : Nat)) ∨
     (∃ code, WriteRet.count 8 = .error code ∧ (WriteRet.count 8).toSsize = code ∧ code < 0 ∧
        ∃ pre pcm err, [Event.acquire_wake_lock, Event.snd_pcm_writei 1 0 2 2] =
          pre ++ (Event.snd_pcm_recover pcm err code :: recoverHook (idealEnv 4) code)) ∨
     (∃ k, WriteRet.count 8 = .count k ∧ k < 8 ∧ idleStream.mHandle.handle = 0)) :=
  ⟨rfl, write_full_count_or_error (idealEnv 4) [1, 2, 3, 4, 5, 6, 7, 8] 8 1 1 idleStream _
    (fun _ _ _ _ => le_refl _) (fun _ _ _ => le_refl _) rfl⟩


/-! ## Faults inside the device loop -/

/-- C2.  On every pass of the device loop (any `sent`, any stream state) on which
    `snd_pcm_writei` returns `-EBADFD`: the pass makes exactly one reopen, with the
    handle's current device id and mode, and no recovery; `sent` and the reported render
    position are unchanged; the pass does not return (it reaches the loop condition);
    the loop then either goes on from the same `sent` (handle still valid and bytes
    remaining), its next pass opening with a device write at that same offset for the
    same remainder, or falls through to `return sent`, which is not an error. -/
theorem write_badfd_reopens_once (E : Env σ τ) (buffer : List Nat) (bytes sent : Nat)
    (s : AudioStreamOutALSA σ τ)
    (hbad : (writeiAt E buffer bytes sent s).1 = -EBADFD) :
    ∃ s1,
      writeIter E buffer bytes sent s = .next sent s1 ∧
      s1.trace = s.trace ++
        ([Event.snd_pcm_writei s.mHandle.handle sent (offeredFrames E bytes sent) (-EBADFD),
          Event.module_open s.mHandle.curDev s.mHandle.curMode] ++ recoverHook E (-EBADFD)) ∧
      reopens ([Event.snd_pcm_writei s.mHandle.handle sent (offeredFrames E bytes sent) (-EBADFD),
          Event.module_open s.mHandle.curDev s.mHandle.curMode] ++ recoverHook E (-EBADFD)) = 1 ∧
      recoveries ([Event.snd_pcm_writei s.mHandle.handle sent (offeredFrames E bytes sent)
          (-EBADFD),
          Event.module_open s.mHandle.curDev s.mHandle.curMode] ++ recoverHook E (-EBADFD)) = 0 ∧
      s1.mFrameCount = s.mFrameCount ∧
      (getRenderPosition s1).2 = (getRenderPosition s).2 ∧
      (∀ fuel, deviceLoop E buffer bytes (fuel + 1) sent s =
        if s1.mHandle.handle ≠ 0 ∧ sent < bytes then deviceLoop E buffer bytes fuel sent s1
        else some (.count sent, s1)) ∧
      ∃ rest, (writeIter E buffer bytes sent s1).state.trace =
        s1.trace ++ Event.snd_pcm_writei s1.mHandle.handle sent (offeredFrames E bytes sent)
          (writeiAt E buffer bytes sent s1).1 :: rest := by
  have hw := writeIter_badfd E buffer bytes sent s hbad
  refine ⟨_, hw, rfl, ?_, ?_, rfl, rfl, ?_, writeIter_first_call E buffer bytes sent _⟩
  · simp [reopens, reopens_append, (recoverHook_quiet E (-EBADFD)).2.2.2.2.1]
  · simp [recoveries, recoveries_append, (recoverHook_quiet E (-EBADFD)).2.2.2.2.2]
  · intro fuel
    rw [deviceLoop_succ, hw]

/-- C2, witness: the second device write of a scripted run reports `-EBADFD`; the
    handle is reopened and the third write goes out from the same offset. -/
theorem write_badfd_reopens_once_witness :
    (writeiAt (scriptedEnv 4 0 9) [1, 2, 3, 4, 5, 6, 7, 8] 8 4 (scriptedStream [-77, 1] 1)).1 =
      -EBADFD ∧
    ∃ s1,
      writeIter (scriptedEnv 4 0 9) [1, 2, 3, 4, 5, 6, 7, 8] 8 4 (scriptedStream [-77, 1] 1) =
        .next 4 s1 ∧
      s1.trace = (scriptedStream [-77, 1] 1).trace ++
        ([Event.snd_pcm_writei 1 4 1 (-EBADFD), Event.module_open 2 0] ++
          recoverHook (scriptedEnv 4 0 9) (-EBADFD)) ∧
      reopens ([Event.snd_pcm_writei 1 4 1 (-EBADFD), Event.module_open 2 0] ++
          recoverHook (scriptedEnv 4 0 9) (-EBADFD)) = 1 ∧
      recoveries ([Event.snd_pcm_writei 1 4 1 (-EBADFD), Event.module_open 2 0] ++
          recoverHook (scriptedEnv 4 0 9) (-EBADFD)) = 0 ∧
      s1.mFrameCount = 1 ∧
      (getRenderPosition s1).2 = (getRenderPosition (scriptedStream [-77, 1] 1)).2 ∧
      (∀ fuel, deviceLoop (scriptedEnv 4 0 9) [1, 2, 3, 4, 5, 6, 7, 8] 8 (fuel + 1) 4
          (scriptedStream [-77, 1] 1) =
        if s1.mHandle.handle ≠ 0 ∧ 4 < 8 then
          deviceLoop (scriptedEnv 4 0 9) [1, 2, 3, 4, 5, 6, 7, 8] 8 fuel 4 s1
        else some (.count 4, s1)) ∧
      ∃ rest, (writeIter (scriptedEnv 4 0 9) [1, 2, 3, 4, 5, 6, 7, 8] 8 4 s1).state.trace =
        s1.trace ++ Event.snd_pcm_writei s1.mHandle.handle 4 1
          (writeiAt (scriptedEnv 4 0 9) [1, 2, 3, 4, 5, 6, 7, 8] 8 4 s1).1 :: rest :=
  ⟨by decide,
   write_badfd_reopens_once (scriptedEnv 4 0 9) [1, 2, 3, 4, 5, 6, 7, 8] 8 4
     (scriptedStream [-77, 1] 1) (by decide)⟩

/-- The passes before pass `k` only add to the log and to the frame counter. -/
theorem loopState_advances (E : Env σ τ) (buffer : List Nat) (bytes : Nat) :
    ∀ k sent s sent1 s1, loopState E buffer bytes k sent s = some (sent1, s1) →
      ∃ evs, Advances s s1 evs := by
  intro k
  induction k with
  | zero =>
    intro sent s sent1 s1 h
    simp only [loopState, Option.some.injEq, Prod.mk.injEq] at h
    rw [← h.2]
    exact ⟨[], Advances.refl s⟩
  | succ k ih =>
    intro sent s sent1 s1 h
    simp only [loopState] at h
    cases hw : writeIter E buffer bytes sent s with
    | ret code s2 => rw [hw] at h; simp at h
    | next sent2 s2 =>
      rw [hw] at h
      by_cases hc : s2.mHandle.handle ≠ 0 ∧ sent2 < bytes
      · simp only [if_pos hc] at h
        obtain ⟨e1, h1, _⟩ := (writeIter_advances E buffer bytes sent s).2 sent2 s2 hw
        obtain ⟨e2, h2⟩ := ih sent2 s2 sent1 s1 h
        exact ⟨e1 ++ e2, h1.trans h2⟩
      · simp only [if_neg hc] at h
        simp at h

/-- What the prologue and the mirror section of `write` leave behind: the lock is held,
    the frame counter is untouched, and the log has grown by calls that accept no
    frames and contain the one wake-lock acquisition, if any. -/
theorem write_entry (E : Env σ τ) (buffer : List Nat) (bytes mfuel : Nat)
    (s s1 : AudioStreamOutALSA σ τ)
    (h : mirrorSection E buffer bytes mfuel (notifyWrite E bytes (acquirePowerLock s)) = some s1) :
    s1.mPowerLock = true ∧ s1.mFrameCount = s.mFrameCount ∧
    ∃ evs, s1.trace = s.trace ++ evs ∧ framesAccepted evs = 0 ∧
      wakeLog evs = (if s.mPowerLock then [] else [true]) := by
  obtain ⟨ho, e3, ⟨t3, p3, w3, _⟩, f3⟩ := mirrorSection_spec E buffer bytes mfuel _ s1 h
  obtain ⟨hp, hf, e1, t1, w1, f1⟩ := acquirePowerLock_spec s
  have hq := writeHook_quiet E bytes
  refine ⟨?_, ?_, e1 ++ writeHook E bytes ++ e3, ?_, ?_, ?_⟩
  · rw [p3]; exact hp
  · have := congrArg AudioStreamOutALSA.mFrameCount ho
    simp only [offMirror, notifyWrite] at this
    rw [this, hf]
  · rw [t3]
    simp only [notifyWrite]
    rw [t1]
    simp [List.append_assoc]
  · simp [framesAccepted_append, f1, f3, hq.1]
  · simp [wakeLog_append, w1, w3, hq.2.1]


/-- C3, as stated, fails when the 32-bit counter wraps in an earlier pass of the call:
    from a reported position of 4294967295 the first pass accepts one frame, the second
    faults and its recovery fails with -5; `write` returns -5 with the position at 0,
    not at 4294967295 + 1. -/
theorem write_failed_recovery_counter_wraps :
    (write (scriptedEnv 4 (-5) 9) [1, 2, 3, 4, 5, 6, 7, 8] 8 1 2
        (scriptedStream [1, -32] 4294967295)).map
      (fun out => (out.1, (getRenderPosition out.2).2, framesAccepted out.2.trace)) =
      some (.error (-5), 0, 1) ∧
    (getRenderPosition (scriptedStream [1, -32] 4294967295)).2 = 4294967295 ∧
    (0 : Nat) ≠ 4294967295 + 1 := by
  decide

/-- C3, amended.  In a `write` call whose mirror section has finished (`s1` is the
    stream at loop entry), let pass `k` of the device loop start in state `s` with
    `sent` bytes out, let its `snd_pcm_writei` return a negative `n` other than
    `-EBADFD` with the handle valid, and let `snd_pcm_recover` return `r ≠ 0`.  Then
    `write` returns `r` at the end of that pass (for every bound above `k`), the pass
    consists of that one device write, one recovery and the recovery hook, nothing
    follows it, the reported render position is the one at the top of the pass, and
    that is, modulo `2 ^ 32`, the position before the call plus the frames accepted by
    the earlier passes. -/
theorem write_failed_recovery_returns (E : Env σ τ) (buffer : List Nat)
    (bytes mfuel k sent : Nat) (s0 s1 s : AudioStreamOutALSA σ τ)
    (hmirror : mirrorSection E buffer bytes mfuel (notifyWrite E bytes (acquirePowerLock s0))
      = some s1)
    (hreach : loopState E buffer bytes k 0 s1 = some (sent, s))
    (hneg : (writeiAt E buffer bytes sent s).1 < 0)
    (hne : (writeiAt E buffer bytes sent s).1 ≠ -EBADFD)
    (hvalid : s.mHandle.handle ≠ 0)
    (hrec : (E.snd_pcm_recover (writeiAt E buffer bytes sent s).2 s.mHandle.handle
              (writeiAt E buffer bytes sent s).1).1 ≠ 0) :
    ∃ s2 earlier,
      (∀ fuel, write E buffer bytes mfuel (k + (fuel + 1)) s0 =
        some (.error (E.snd_pcm_recover (writeiAt E buffer bytes sent s).2 s.mHandle.handle
              (writeiAt E buffer bytes sent s).1).1, s2)) ∧
      s2.trace = s.trace ++
        ([Event.snd_pcm_writei s.mHandle.handle sent (offeredFrames E bytes sent)
            (writeiAt E buffer bytes sent s).1,
          Event.snd_pcm_recover s.mHandle.handle (writeiAt E buffer bytes sent s).1
            (E.snd_pcm_recover (writeiAt E buffer bytes sent s).2 s.mHandle.handle
              (writeiAt E buffer bytes sent s).1).1] ++
         recoverHook E (E.snd_pcm_recover (writeiAt E buffer bytes sent s).2
              s.mHandle.handle (writeiAt E buffer bytes sent s).1).1) ∧
      (getRenderPosition s2).2 = (getRenderPosition s).2 ∧
      s.trace = s0.trace ++ earlier ∧
      (getRenderPosition s2).2 =
        ((getRenderPosition s0).2 + framesAccepted earlier) % UINT32_MOD := by
  have hw := writeIter_fault E buffer bytes sent s hneg hne hvalid
  rw [if_pos hrec] at hw
  obtain ⟨s2, hs2⟩ : ∃ s2, writeIter E buffer bytes sent s =
      Iter.ret (E.snd_pcm_recover (writeiAt E buffer bytes sent s).2 s.mHandle.handle
              (writeiAt E buffer bytes sent s).1).1 s2 := ⟨_, hw⟩
  obtain ⟨_, _, _, _, _, _, hfc, ht⟩ := writeIter_ret E buffer bytes sent s s2 _ hs2
  obtain ⟨_, hf1, e1, t1, f1, _⟩ := write_entry E buffer bytes mfuel s0 s1 hmirror
  obtain ⟨e2, t2, _, _, f2⟩ := loopState_advances E buffer bytes k 0 s1 sent s hreach
  refine ⟨s2, e1 ++ e2, ?_, ht, ?_, ?_, ?_⟩
  · intro fuel
    rw [write_of_mirrorSection E buffer bytes mfuel _ s0 s1 hmirror,
      deviceLoop_of_loopState E buffer bytes k 0 s1 sent s (fuel + 1) hreach,
      deviceLoop_succ, hs2]
  · simp only [getRenderPosition, hfc]
  · rw [t2, t1, List.append_assoc]
  · simp only [getRenderPosition]
    rw [hfc, f2, framesAccepted_append, f1, hf1]
    simp [Nat.add_mod]

/-- C3, witness: the second pass of a scripted call faults with -32 and its recovery
    fails with -5. -/
theorem write_failed_recovery_returns_witness :
    ∃ s2 earlier,
      (∀ fuel, write (scriptedEnv 4 (-5) 9) [1, 2, 3, 4, 5, 6, 7, 8] 8 1 (1 + (fuel + 1))
          (scriptedStream [1, -32] 6) = some (.error (-5), s2)) ∧
      s2.trace = [Event.acquire_wake_lock, Event.aDev_write 8, Event.snd_pcm_writei 1 0 2 1] ++
        ([Event.snd_pcm_writei 1 4 1 (-32), Event.snd_pcm_recover 1 (-32) (-5)] ++
          recoverHook (scriptedEnv 4 (-5) 9) (-5)) ∧
      (getRenderPosition s2).2 = 7 ∧
      [Event.acquire_wake_lock, Event.aDev_write 8, Event.snd_pcm_writei 1 0 2 1] =
        (scriptedStream [1, -32] 6).trace ++ earlier ∧
      (getRenderPosition s2).2 =
        ((getRenderPosition (scriptedStream [1, -32] 6)).2 + framesAccepted earlier) %
          UINT32_MOD :=
  write_failed_recovery_returns (scriptedEnv 4 (-5) 9) [1, 2, 3, 4, 5, 6, 7, 8] 8 1 1 4
    (scriptedStream [1, -32] 6)
    { scriptedStream [-32] 6 with
      mPowerLock := true, trace := [Event.acquire_wake_lock, Event.aDev_write 8],
      pcm := [1, -32] }
    { scriptedStream [-32] 7 with
      mPowerLock := true,
      trace := [Event.acquire_wake_lock, Event.aDev_write 8, Event.snd_pcm_writei 1 0 2 1] }
    rfl rfl (by decide) (by decide) (by decide) (by decide)

/-- C4, as stated, fails when the 32-bit counter wraps: from a reported position of
    4294967295 a write of one 4-byte frame returns the byte count 4 with one frame
    accepted, and the position reported afterwards is 0, not 4294967295 + 1. -/
theorem render_position_wraps_on_write :
    (write (idealEnv 4) [1, 2, 3, 4] 4 1 1 longPlayedStream).map
      (fun out => (out.1, (getRenderPosition out.2).2, framesAccepted out.2.trace)) =
      some (.count 4, 0, 1) ∧
    (getRenderPosition longPlayedStream).2 = 4294967295 ∧
    (0 : Nat) ≠ 4294967295 + 1 := by
  decide

/-- C4, amended.  For every `write` that returns a byte count `k`: with `evs` the calls
    of this `write`, the render position reported afterwards is the position before
    plus the frames accepted in `evs`, modulo `2 ^ 32` (so exactly that sum when it is
    below `2 ^ 32`), and `k` is the byte equivalent of those frames (conversely, for a
    positive frame size, those frames are `snd_pcm_bytes_to_frames` of `k`). -/
theorem write_render_position (E : Env σ τ) (buffer : List Nat) (bytes mfuel dfuel : Nat)
    (s : AudioStreamOutALSA σ τ) (out : WriteRet × AudioStreamOutALSA σ τ) (k : Nat)
    (hout : write E buffer bytes mfuel dfuel s = some out)
    (hk : out.1 = .count k) :
    ∃ evs, out.2.trace = s.trace ++ evs ∧
      (getRenderPosition out.2).2 =
        ((getRenderPosition s).2 + framesAccepted evs) % UINT32_MOD ∧
      ((getRenderPosition s).2 + framesAccepted evs < UINT32_MOD →
        (getRenderPosition out.2).2 = (getRenderPosition s).2 + framesAccepted evs) ∧
      (k : Int) = snd_pcm_frames_to_bytes E.frameSize (framesAccepted evs) ∧
      (0 < E.frameSize → framesAccepted evs = snd_pcm_bytes_to_frames E.frameSize k) := by
  obtain ⟨s1, hm, hl⟩ := write_some E buffer bytes mfuel dfuel s out hout
  obtain ⟨_, hf1, e1, t1, f1, _⟩ := write_entry E buffer bytes mfuel s s1 hm
  obtain ⟨e2, ⟨t2, _, _, f2⟩, hs⟩ := deviceLoop_advances E buffer bytes dfuel 0 s1 out hl
  have hkk := hs k hk
  have hpos : (getRenderPosition out.2).2 =
      ((getRenderPosition s).2 + framesAccepted (e1 ++ e2)) % UINT32_MOD := by
    simp only [getRenderPosition]
    rw [f2, framesAccepted_append, f1, hf1]
    simp [Nat.add_mod]
  refine ⟨e1 ++ e2, by rw [t2, t1, List.append_assoc], hpos, ?_, ?_, ?_⟩
  · intro hlt
    rw [hpos, Nat.mod_eq_of_lt hlt]
  · rw [hkk, framesAccepted_append, f1]
    simp [snd_pcm_frames_to_bytes]
  · intro hfs
    rw [hkk, framesAccepted_append, f1]
    simp [snd_pcm_bytes_to_frames, Nat.mul_div_cancel _ hfs]

/-- C4, witness: after standby-like state (position 0) a write of two 4-byte frames
    returns 8 and leaves the position at 2. -/
theorem write_render_position_witness :
    ∃ evs, [Event.acquire_wake_lock, Event.snd_pcm_writei 1 0 2 2] = idleStream.trace ++ evs ∧
      (2 : Nat) = ((getRenderPosition idleStream).2 + framesAccepted evs) % UINT32_MOD ∧
      ((getRenderPosition idleStream).2 + framesAccepted evs < UINT32_MOD →
        (2 : Nat) = (getRenderPosition idleStream).2 + framesAccepted evs) ∧
      ((8 : Nat) : Int) = snd_pcm_frames_to_bytes 4 (framesAccepted evs) ∧
      (0 < 4 → framesAccepted evs = snd_pcm_bytes_to_frames 4 8) :=
  write_render_position (idealEnv 4) [1, 2, 3, 4, 5, 6, 7, 8] 8 1 1 idleStream
    (.count 8,
      { idleStream with
        mFrameCount := 2, mPowerLock := true,
        trace := [Event.acquire_wake_lock, Event.snd_pcm_writei 1 0 2 2] })
    8 rfl rfl


/-! ## Calls in sequence: power lock and render position -/

theorem alternatesFrom_append (held : Bool) (xs ys : List Bool) :
    alternatesFrom held (xs ++ ys) =
      (alternatesFrom held xs && alternatesFrom (heldAfter held xs) ys) := by
  induction xs generalizing held with
  | nil => simp [alternatesFrom, heldAfter]
  | cons a rest ih => simp [alternatesFrom, heldAfter, ih, Bool.and_assoc]

theorem heldAfter_append (held : Bool) (xs ys : List Bool) :
    heldAfter held (xs ++ ys) = heldAfter (heldAfter held xs) ys := by
  induction xs generalizing held with
  | nil => simp [heldAfter]
  | cons a rest ih => simp [heldAfter, ih]

/-- In an alternating list the acquisitions and releases balance up to the lock being
    held at the start and at the end. -/
theorem alternatesFrom_count (held : Bool) (xs : List Bool)
    (h : alternatesFrom held xs = true) :
    xs.count true + (if held then 1 else 0) =
      xs.count false + (if heldAfter held xs then 1 else 0) := by
  induction xs generalizing held with
  | nil => simp [heldAfter]
  | cons a rest ih =>
    simp only [alternatesFrom, Bool.and_eq_true, bne_iff_ne, ne_eq] at h
    have := ih a h.2
    cases a <;> cases held <;> simp_all [heldAfter]; omega

theorem expectedWakeCalls_alternate (held : Bool) (op : Op) :
    alternatesFrom held (expectedWakeCalls held op) = true ∧
    heldAfter held (expectedWakeCalls held op) = expectedLockFlag held op := by
  cases op <;> cases held <;> simp [expectedWakeCalls, expectedLockFlag, alternatesFrom, heldAfter]

/-- What one finished call does to the log, the wake lock, the flag and the frame
    counter. -/
theorem runOp_spec (E : Env σ τ) (op : Op) (s s1 : AudioStreamOutALSA σ τ)
    (h : runOp E op s = some s1) :
    ∃ evs, s1.trace = s.trace ++ evs ∧
      wakeLog evs = expectedWakeCalls s.mPowerLock op ∧
      s1.mPowerLock = expectedLockFlag s.mPowerLock op ∧
      (match op with
        | .standby => s1.mFrameCount = 0
        | .write _ _ _ _ =>
          s1.mFrameCount % UINT32_MOD = (s.mFrameCount + framesAccepted evs) % UINT32_MOD
        | _ => s1.mFrameCount = s.mFrameCount) := by
  cases op with
  | write buffer bytes mfuel dfuel =>
    simp only [runOp, Option.map_eq_some'] at h
    obtain ⟨out, hout, rfl⟩ := h
    obtain ⟨s2, hm, hl⟩ := write_some E buffer bytes mfuel dfuel s out hout
    obtain ⟨hp, hf1, e1, t1, f1, w1⟩ := write_entry E buffer bytes mfuel s s2 hm
    obtain ⟨e2, ⟨t2, p2, w2, f2⟩, _⟩ := deviceLoop_advances E buffer bytes dfuel 0 s2 out hl
    refine ⟨e1 ++ e2, by rw [t2, t1, List.append_assoc], ?_, ?_, ?_⟩
    · rw [wakeLog_append, w1, w2]; simp [expectedWakeCalls]
    · rw [p2, hp]; rfl
    · show out.2.mFrameCount % UINT32_MOD = _
      rw [f2, framesAccepted_append, f1, hf1]
      simp
  | open_ mode =>
    simp only [runOp, Option.some.injEq] at h
    subst h
    exact ⟨[Event.ops_open mode], rfl, by simp [wakeLog, expectedWakeCalls], rfl, rfl⟩
  | standby =>
    simp only [runOp, Option.some.injEq] at h
    subst h
    obtain ⟨hp, _, e, t, w, _⟩ := releasePowerLock_spec (drain E s)
    refine ⟨Event.snd_pcm_drain s.mHandle.handle :: e, ?_, ?_, ?_, rfl⟩
    · show (releasePowerLock (drain E s)).trace = _
      rw [t]; simp [drain]
    · simp only [wakeLog, w, expectedWakeCalls]; rfl
    · exact hp
  | close =>
    simp only [runOp, Option.some.injEq] at h
    subst h
    obtain ⟨hp, hf, e, t, w, _⟩ := releasePowerLock_spec (opsClose E (drain E s))
    have w1 : wakeLog e = if s.mPowerLock = true then [false] else [] := by
      simpa [opsClose, drain] using w
    by_cases hs : (releasePowerLock (opsClose E (drain E s))).pcm_server_socket ≠ 0
    · refine ⟨[Event.snd_pcm_drain s.mHandle.handle, Event.ops_close] ++ e ++
          [Event.sock_close (releasePowerLock (opsClose E (drain E s))).pcm_server_socket],
        ?_, ?_, ?_, ?_⟩
      · simp only [close, closeMirror, if_pos hs]
        rw [t]; simp [opsClose, drain]
      · simp [wakeLog_append, wakeLog, w1, expectedWakeCalls]
      · simp only [close, closeMirror, if_pos hs]; exact hp
      · simp only [close, closeMirror, if_pos hs]; rw [hf]; rfl
    · refine ⟨[Event.snd_pcm_drain s.mHandle.handle, Event.ops_close] ++ e, ?_, ?_, ?_, ?_⟩
      · simp only [close, closeMirror, if_neg hs]
        rw [t]; simp [opsClose, drain]
      · simp [wakeLog_append, wakeLog, w1, expectedWakeCalls]
      · simp only [close, closeMirror, if_neg hs]; exact hp
      · simp only [close, closeMirror, if_neg hs]; rw [hf]; rfl
  | setPCMServerSocket csocket =>
    simp only [runOp, Option.some.injEq] at h
    subst h
    exact ⟨[], by simp [setPCMServerSocket], by simp [wakeLog, expectedWakeCalls], rfl, rfl⟩

/-- Along a finished sequence of calls the wake-lock calls alternate, starting from the
    flag, and end at the flag. -/
theorem run_wakeLog (E : Env σ τ) :
    ∀ ops (s s1 : AudioStreamOutALSA σ τ), run E ops s = some s1 →
      ∃ evs, s1.trace = s.trace ++ evs ∧
        alternatesFrom s.mPowerLock (wakeLog evs) = true ∧
        heldAfter s.mPowerLock (wakeLog evs) = s1.mPowerLock := by
  intro ops
  induction ops with
  | nil =>
    intro s s1 h
    simp only [run, Option.some.injEq] at h
    subst h
    exact ⟨[], by simp, by simp [wakeLog, alternatesFrom], by simp [wakeLog, heldAfter]⟩
  | cons op ops ih =>
    intro s s1 h
    simp only [run] at h
    cases ho : runOp E op s with
    | none => rw [ho] at h; simp at h
    | some s2 =>
      rw [ho] at h
      obtain ⟨e1, t1, w1, p1, _⟩ := runOp_spec E op s s2 ho
      obtain ⟨e2, t2, a2, h2⟩ := ih s2 s1 h
      have hx := expectedWakeCalls_alternate s.mPowerLock op
      refine ⟨e1 ++ e2, by rw [t2, t1, List.append_assoc], ?_, ?_⟩
      · rw [wakeLog_append, alternatesFrom_append, w1, hx.1, hx.2, ← p1, a2]; rfl
      · rw [wakeLog_append, heldAfter_append, w1, hx.2, ← p1, h2]

/-- The passes before pass `k` of the mirror loop only add socket calls to the log. -/
theorem mirrorState_advances (E : Env σ τ) (buffer : List Nat) (bytes : Nat) :
    ∀ k pcm_sent s pcm_sent1 s1,
      mirrorState E buffer bytes k pcm_sent s = some (pcm_sent1, s1) →
      ∃ evs, Advances s s1 evs := by
  intro k
  induction k with
  | zero =>
    intro pcm_sent s pcm_sent1 s1 h
    simp only [mirrorState, Option.some.injEq, Prod.mk.injEq] at h
    rw [← h.2]
    exact ⟨[], Advances.refl s⟩
  | succ k ih =>
    intro pcm_sent s pcm_sent1 s1 h
    simp only [mirrorState] at h
    split at h
    · obtain ⟨e2, h2⟩ := ih _ _ _ _ h
      exact ⟨_, Advances.trans (advances_sock_write _ _ _ _ _ _) h2⟩
    · simp at h

/-- At every point inside a `write`, whether or not the call returns, the lock flag is
    true and the call has so far made one acquisition if the flag was false on entry
    and none if it was true. -/
theorem write_in_progress (E : Env σ τ) (buffer : List Nat) (bytes : Nat)
    (s p : AudioStreamOutALSA σ τ)
    (h : (∃ k, writeInMirror E buffer bytes k s = some p) ∨
         (∃ mfuel k, writeInDevice E buffer bytes mfuel k s = some p)) :
    p.mPowerLock = true ∧
    ∃ evs, p.trace = s.trace ++ evs ∧ wakeLog evs = (if s.mPowerLock then [] else [true]) := by
  rcases h with ⟨k, h⟩ | ⟨mfuel, k, h⟩
  · unfold writeInMirror at h
    split at h
    · simp only [Option.map_eq_some'] at h
      obtain ⟨⟨q, p1⟩, hm, rfl⟩ := h
      obtain ⟨e2, t2, p2, w2, _⟩ := mirrorState_advances E buffer bytes k 0 _ q p1 hm
      obtain ⟨hp, _, e1, t1, w1, _⟩ := acquirePowerLock_spec s
      have hq := writeHook_quiet E bytes
      refine ⟨?_, e1 ++ writeHook E bytes ++ e2, ?_, ?_⟩
      · show p1.mPowerLock = true
        rw [p2]; exact hp
      · show p1.trace = _
        rw [t2]
        simp only [notifyWrite]
        rw [t1]
        simp [List.append_assoc]
      · simp [wakeLog_append, w1, w2, hq.2.1]
    · simp at h
  · unfold writeInDevice at h
    cases hm : mirrorSection E buffer bytes mfuel (notifyWrite E bytes (acquirePowerLock s)) with
    | none => rw [hm] at h; simp at h
    | some s1 =>
      rw [hm] at h
      simp only [Option.map_eq_some'] at h
      obtain ⟨⟨sent, p1⟩, hl, rfl⟩ := h
      obtain ⟨hp, _, e1, t1, _, w1⟩ := write_entry E buffer bytes mfuel s s1 hm
      obtain ⟨e2, t2, p2, w2, _⟩ := loopState_advances E buffer bytes k 0 s1 sent p1 hl
      refine ⟨?_, e1 ++ e2, ?_, ?_⟩
      · show p1.mPowerLock = true
        rw [p2]; exact hp
      · show p1.trace = _
        rw [t2, t1, List.append_assoc]
      · simp [wakeLog_append, w1, w2]

/-- On a device that accepts exactly the frames it is offered, a pass sends the whole
    frames of the remainder and leaves the handle alone. -/
theorem writeIter_ideal (E : Env σ τ) (buffer : List Nat) (bytes sent : Nat)
    (s : AudioStreamOutALSA σ τ)
    (hdev : ∀ w pcm data frames, (E.snd_pcm_writei w pcm data frames).1 = frames) :
    ∃ s1, writeIter E buffer bytes sent s =
        .next (sent + offeredFrames E bytes sent * E.frameSize) s1 ∧
      s1.mHandle = s.mHandle ∧
      s1.trace = s.trace ++ [Event.snd_pcm_writei s.mHandle.handle sent
        (offeredFrames E bytes sent) (offeredFrames E bytes sent)] := by
  have hn : (writeiAt E buffer bytes sent s).1 = (offeredFrames E bytes sent : Int) :=
    hdev _ _ _ _
  have hpos : 0 ≤ (writeiAt E buffer bytes sent s).1 := by rw [hn]; exact Int.natCast_nonneg _
  have hw := writeIter_accept E buffer bytes sent s hpos
  rw [hn, Int.toNat_natCast] at hw
  exact ⟨_, hw, rfl, rfl⟩

/-- With a remainder that is not a whole number of frames the loop never exits. -/
theorem deviceLoop_never_exits (E : Env σ τ) (buffer : List Nat) (bytes : Nat)
    (hfs : 0 < E.frameSize)
    (hdev : ∀ w pcm data frames, (E.snd_pcm_writei w pcm data frames).1 = frames) :
    ∀ fuel sent (s : AudioStreamOutALSA σ τ), s.mHandle.handle ≠ 0 → sent ≤ bytes →
      ¬ E.frameSize ∣ (bytes - sent) → deviceLoop E buffer bytes fuel sent s = none := by
  intro fuel
  induction fuel with
  | zero => intro sent s _ _ _; rfl
  | succ fuel ih =>
    intro sent s hv hle hnd
    obtain ⟨s1, hw, hh, _⟩ := writeIter_ideal E buffer bytes sent s hdev
    rw [deviceLoop_succ, hw]
    have hmod : (bytes - sent) % E.frameSize ≠ 0 := fun h => hnd (Nat.dvd_of_mod_eq_zero h)
    have hlt : (bytes - sent) % E.frameSize < E.frameSize := Nat.mod_lt _ hfs
    have hdm : E.frameSize * ((bytes - sent) / E.frameSize) + (bytes - sent) % E.frameSize =
        bytes - sent := Nat.div_add_mod _ _
    have hoff : offeredFrames E bytes sent * E.frameSize =
        E.frameSize * ((bytes - sent) / E.frameSize) := by
      unfold offeredFrames snd_pcm_bytes_to_frames
      exact Nat.mul_comm _ _
    have hrem : bytes - (sent + offeredFrames E bytes sent * E.frameSize) =
        (bytes - sent) % E.frameSize := by omega
    have hc : s1.mHandle.handle ≠ 0 ∧ sent + offeredFrames E bytes sent * E.frameSize < bytes :=
      ⟨by rw [hh]; exact hv, by omega⟩
    dsimp only
    rw [if_pos hc]
    apply ih _ _ hc.1 (by omega)
    rw [hrem]
    exact Nat.not_dvd_of_pos_of_lt (Nat.pos_of_ne_zero hmod) hlt

/-- On `idealEnv 4` a `write` of six bytes after `lockScenario` never returns,
    whatever the bounds on its loops. -/
theorem write_six_bytes_never_returns (mfuel dfuel : Nat) :
    runOp (idealEnv 4) (.write [1, 2, 3, 4, 5, 6] 6 mfuel dfuel) lockScenarioEnd = none := by
  have hm : mirrorSection (idealEnv 4) [1, 2, 3, 4, 5, 6] 6 mfuel
      (notifyWrite (idealEnv 4) 6 (acquirePowerLock lockScenarioEnd)) =
      some (notifyWrite (idealEnv 4) 6 (acquirePowerLock lockScenarioEnd)) := rfl
  have hl := deviceLoop_never_exits (idealEnv 4) [1, 2, 3, 4, 5, 6] 6 (by decide)
    (fun _ _ _ _ => rfl) dfuel 0 (notifyWrite (idealEnv 4) 6 (acquirePowerLock lockScenarioEnd))
    (by decide) (by decide) (by decide)
  simp only [runOp, write_of_mirrorSection _ _ _ _ dfuel _ _ hm, hl, Option.map_none']

/-- C6.  After any finished sequence of calls (`write`, `open`, `standby`, `close`,
    mirror-socket updates) from a stream whose power-lock flag is false: the wake-lock
    calls made so far strictly alternate beginning with an acquisition; the flag is
    true exactly when there has been one more acquisition than releases (and false
    exactly when there have been as many); and whatever call comes next and however it
    ends, a `write` acquires exactly once if the flag is false and not at all if it is
    true, `standby` and `close` release exactly once if the flag is true and not at
    all otherwise, and the flag afterwards is true after `write`, false after
    `standby` and `close`.  A `write` need not return for this to hold: at every point
    inside a following `write` (the top of any pass of its mirror loop or of its device
    loop), returning or not, the flag is true, the call has made exactly one
    acquisition if the flag was false on entry and none if it was true, and the
    wake-lock calls made since the start still alternate, with one more acquisition
    than releases. -/
theorem power_lock_alternates (E : Env σ τ) (ops : List Op) (s s1 : AudioStreamOutALSA σ τ)
    (h0 : s.mPowerLock = false) (hrun : run E ops s = some s1) :
    ∃ evs, s1.trace = s.trace ++ evs ∧
      alternatesFrom false (wakeLog evs) = true ∧
      (s1.mPowerLock = true ↔ (wakeLog evs).count true = (wakeLog evs).count false + 1) ∧
      (s1.mPowerLock = false ↔ (wakeLog evs).count true = (wakeLog evs).count false) ∧
      (∀ op s2, runOp E op s1 = some s2 →
        ∃ evs2, s2.trace = s1.trace ++ evs2 ∧
          wakeLog evs2 = expectedWakeCalls s1.mPowerLock op ∧
          s2.mPowerLock = expectedLockFlag s1.mPowerLock op) ∧
      (∀ buffer bytes p,
        ((∃ k, writeInMirror E buffer bytes k s1 = some p) ∨
         (∃ mfuel k, writeInDevice E buffer bytes mfuel k s1 = some p)) →
        p.mPowerLock = true ∧
        ∃ evs2, p.trace = s1.trace ++ evs2 ∧
          wakeLog evs2 = (if s1.mPowerLock then [] else [true]) ∧
          alternatesFrom false (wakeLog (evs ++ evs2)) = true ∧
          (wakeLog (evs ++ evs2)).count true = (wakeLog (evs ++ evs2)).count false + 1) := by
  obtain ⟨evs, t, a, hh⟩ := run_wakeLog E ops s s1 hrun
  rw [h0] at a hh
  have hc := alternatesFrom_count false (wakeLog evs) a
  rw [hh] at hc
  refine ⟨evs, t, a, ?_, ?_, ?_, ?_⟩
  · cases hp : s1.mPowerLock <;> simp [hp] at hc ⊢ <;> omega
  · cases hp : s1.mPowerLock <;> simp [hp] at hc ⊢ <;> omega
  · intro op s2 h2
    obtain ⟨e2, t2, w2, p2, _⟩ := runOp_spec E op s1 s2 h2
    exact ⟨e2, t2, w2, p2⟩
  · intro buffer bytes p hp
    obtain ⟨hflag, e2, t2, w2⟩ := write_in_progress E buffer bytes s1 p hp
    have halt : alternatesFrom false (wakeLog (evs ++ e2)) = true := by
      rw [wakeLog_append, alternatesFrom_append, a, hh, w2]
      cases s1.mPowerLock <;> simp [alternatesFrom]
    have hheld : heldAfter false (wakeLog (evs ++ e2)) = true := by
      rw [wakeLog_append, heldAfter_append, hh, w2]
      cases s1.mPowerLock <;> simp [heldAfter]
    have hcount := alternatesFrom_count false (wakeLog (evs ++ e2)) halt
    rw [hheld] at hcount
    refine ⟨hflag, e2, t2, w2, halt, ?_⟩
    simpa using hcount

/-- C6, witness: two writes then standby from the idle stream; one acquisition, one
    release, flag false at the end.  A following `write` of six bytes with 4-byte
    frames never returns, and at the top of its third device pass the lock has been
    acquired again and the flag is true. -/
theorem power_lock_alternates_witness :
    run (idealEnv 4) lockScenario idleStream = some lockScenarioEnd ∧
    (∃ evs, lockScenarioEnd.trace = idleStream.trace ++ evs ∧
      alternatesFrom false (wakeLog evs) = true ∧
      (lockScenarioEnd.mPowerLock = true ↔
        (wakeLog evs).count true = (wakeLog evs).count false + 1) ∧
      (lockScenarioEnd.mPowerLock = false ↔
        (wakeLog evs).count true = (wakeLog evs).count false) ∧
      (∀ op s2, runOp (idealEnv 4) op lockScenarioEnd = some s2 →
        ∃ evs2, s2.trace = lockScenarioEnd.trace ++ evs2 ∧
          wakeLog evs2 = expectedWakeCalls lockScenarioEnd.mPowerLock op ∧
          s2.mPowerLock = expectedLockFlag lockScenarioEnd.mPowerLock op) ∧
      (∀ buffer bytes p,
        ((∃ k, writeInMirror (idealEnv 4) buffer bytes k lockScenarioEnd = some p) ∨
         (∃ mfuel k, writeInDevice (idealEnv 4) buffer bytes mfuel k lockScenarioEnd = some p)) →
        p.mPowerLock = true ∧
        ∃ evs2, p.trace = lockScenarioEnd.trace ++ evs2 ∧
          wakeLog evs2 = (if lockScenarioEnd.mPowerLock then [] else [true]) ∧
          alternatesFrom false (wakeLog (evs ++ evs2)) = true ∧
          (wakeLog (evs ++ evs2)).count true = (wakeLog (evs ++ evs2)).count false + 1)) ∧
    (∀ mfuel dfuel,
      runOp (idealEnv 4) (.write [1, 2, 3, 4, 5, 6] 6 mfuel dfuel) lockScenarioEnd = none) ∧
    (writeInDevice (idealEnv 4) [1, 2, 3, 4, 5, 6] 6 1 2 lockScenarioEnd).map
      (fun p => (p.mPowerLock, wakeLog p.trace)) = some (true, [true, false, true]) :=
  ⟨rfl, power_lock_alternates (idealEnv 4) lockScenario idleStream lockScenarioEnd rfl rfl,
   write_six_bytes_never_returns, by decide⟩

/-- C5, as stated, fails when the 32-bit counter wraps: across a `write` that accepts
    one frame the reported render position goes from 4294967295 down to 0, so it
    decreases across, and is reset to 0 by, a call other than `standby`. -/
theorem render_position_decreases_across_write :
    (getRenderPosition longPlayedStream).2 = 4294967295 ∧
    (runOp (idealEnv 4) (.write [1, 2, 3, 4] 4 1 1) longPlayedStream).map
      (fun s => (getRenderPosition s).2) = some 0 ∧
    (0 : Nat) < 4294967295 := by
  decide

/-- C5, amended.  Across any finished call, from any state (so at every point of every
    sequence of calls): `standby` leaves the reported render position at 0; `open`,
    `close` and a mirror-socket update leave it unchanged; a `write`, whether it
    returns a count or an error, leaves it at the position before plus the frames
    accepted during the call, modulo `2 ^ 32`, so it does not decrease across a
    `write` whenever that sum is below `2 ^ 32`. -/
theorem render_position_across_calls (E : Env σ τ) (op : Op) (s s1 : AudioStreamOutALSA σ τ)
    (h : runOp E op s = some s1) :
    ∃ evs, s1.trace = s.trace ++ evs ∧
      (match op with
        | .standby => (getRenderPosition s1).2 = 0
        | .write _ _ _ _ =>
          (getRenderPosition s1).2 =
            ((getRenderPosition s).2 + framesAccepted evs) % UINT32_MOD ∧
          ((getRenderPosition s).2 + framesAccepted evs < UINT32_MOD →
            (getRenderPosition s).2 ≤ (getRenderPosition s1).2)
        | .open_ _ => (getRenderPosition s1).2 = (getRenderPosition s).2
        | .close => (getRenderPosition s1).2 = (getRenderPosition s).2
        | .setPCMServerSocket _ => (getRenderPosition s1).2 = (getRenderPosition s).2) := by
  obtain ⟨evs, t, _, _, hf⟩ := runOp_spec E op s s1 h
  refine ⟨evs, t, ?_⟩
  cases op with
  | write buffer bytes mfuel dfuel =>
    simp only [getRenderPosition] at hf ⊢
    have hpos : s1.mFrameCount % UINT32_MOD =
        (s.mFrameCount % UINT32_MOD + framesAccepted evs) % UINT32_MOD := by
      rw [hf]; simp [Nat.add_mod]
    refine ⟨hpos, fun hlt => ?_⟩
    rw [hpos, Nat.mod_eq_of_lt hlt]
    exact Nat.le_add_right _ _
  | open_ mode => simp only [getRenderPosition] at hf ⊢; rw [hf]
  | standby => simp only [getRenderPosition] at hf ⊢; rw [hf]; rfl
  | close => simp only [getRenderPosition] at hf ⊢; rw [hf]
  | setPCMServerSocket csocket => simp only [getRenderPosition] at hf ⊢; rw [hf]

/-- C5, witness: a write of two 4-byte frames from a position of 5. -/
theorem render_position_across_calls_witness :
    ∃ evs, [Event.acquire_wake_lock, Event.snd_pcm_writei 1 0 2 2] =
        ({ idleStream with mFrameCount := 5 } : AudioStreamOutALSA Unit Unit).trace ++ evs ∧
      ((7 : Nat) % UINT32_MOD = (5 % UINT32_MOD + framesAccepted evs) % UINT32_MOD ∧
        (5 % UINT32_MOD + framesAccepted evs < UINT32_MOD →
          5 % UINT32_MOD ≤ 7 % UINT32_MOD)) :=
  render_position_across_calls (idealEnv 4) (.write [1, 2, 3, 4, 5, 6, 7, 8] 8 1 1)
    { idleStream with mFrameCount := 5 }
    { idleStream with
      mFrameCount := 7, mPowerLock := true,
      trace := [Event.acquire_wake_lock, Event.snd_pcm_writei 1 0 2 2] }
    rfl


/-! ## The mirror loop when the socket takes less than it is offered -/

/-- Once the mirror loop holds a count `0 < pcm_sent < bytes` from a previous `::write`
    and the socket keeps accepting between 1 and the offered number of bytes, the
    loop never ends: each pass offers `bytes - pcm_sent > 0` bytes, and the count it
    gets back is again positive and below `bytes`. -/
theorem mirrorLoop_never_ends (E : Env σ τ) (buffer : List Nat) (bytes : Nat)
    (hsock : ∀ t fd data count, 0 < count →
      0 < (E.sock_write t fd data count).1 ∧ (E.sock_write t fd data count).1 ≤ count) :
    ∀ fuel (pcm_sent : Int) (s : AudioStreamOutALSA σ τ), 0 < pcm_sent → pcm_sent < bytes →
      mirrorLoop E buffer bytes fuel pcm_sent s = none := by
  intro fuel
  induction fuel with
  | zero => intro pcm_sent s _ _; rfl
  | succ fuel ih =>
    intro pcm_sent s hpos hlt
    rw [mirrorLoop_succ]
    have hoff : 0 < bytes - pcm_sent.toNat := by omega
    obtain ⟨h1, h2⟩ := hsock s.net s.pcm_server_socket
      (slice buffer pcm_sent.toNat (bytes - pcm_sent.toNat)) (bytes - pcm_sent.toNat) hoff
    rw [if_pos h1]
    apply ih _ _ h1
    omega

/-- With a non-empty buffer, a first `::write` that accepts only part of it sends the loop into the
    state of `mirrorLoop_never_ends`: `write` then never returns. -/
theorem write_never_returns_on_short_mirror_write (E : Env σ τ) (buffer : List Nat)
    (bytes mfuel dfuel : Nat) (s : AudioStreamOutALSA σ τ)
    (hclient : s.pcm_server_socket ≠ 0) (hb : 0 < bytes)
    (hsock : ∀ t fd data count, 0 < count →
      0 < (E.sock_write t fd data count).1 ∧ (E.sock_write t fd data count).1 ≤ count)
    (hshort : (E.sock_write s.net s.pcm_server_socket (slice buffer 0 bytes) bytes).1 < bytes) :
    write E buffer bytes mfuel dfuel s = none := by
  have hm : mirrorSection E buffer bytes mfuel (notifyWrite E bytes (acquirePowerLock s)) = none := by
    have hs1 : (notifyWrite E bytes (acquirePowerLock s)).pcm_server_socket = s.pcm_server_socket := by
      unfold notifyWrite acquirePowerLock; split <;> rfl
    have hs2 : (notifyWrite E bytes (acquirePowerLock s)).net = s.net := by
      unfold notifyWrite acquirePowerLock; split <;> rfl
    unfold mirrorSection
    rw [if_pos (by rw [hs1]; exact hclient)]
    cases mfuel with
    | zero => rfl
    | succ mfuel =>
      rw [mirrorLoop_succ]
      simp only [Int.toNat_zero, Nat.sub_zero, hs1, hs2]
      obtain ⟨h1, _⟩ := hsock s.net s.pcm_server_socket (slice buffer 0 bytes) bytes hb
      rw [if_pos h1]
      exact mirrorLoop_never_ends E buffer bytes hsock mfuel _ _ h1 hshort
  simp [write, hm]


/-- C7 fails on the code at the buffer `[1, 2]` with a mirror socket that accepts one
    byte per `::write`: the first three socket writes deliver the bytes `1, 2, 2` (the
    second byte is sent again, from the offset of the last count instead of the
    running total), and the mirror loop never ends, so `write` never returns, whatever
    the bounds. -/
theorem mirror_short_write_resends :
    (mirrorState (trickleEnv 1) [1, 2] 2 3 0
        (notifyWrite (trickleEnv 1) 2 (acquirePowerLock (setPCMServerSocket 7 idleStream)))).map
      (fun p => mirrored [1, 2] p.2.trace) = some [1, 2, 2] ∧
    ∀ mfuel dfuel,
      write (trickleEnv 1) [1, 2] 2 mfuel dfuel (setPCMServerSocket 7 idleStream) = none := by
  refine ⟨by decide, fun mfuel dfuel => ?_⟩
  apply write_never_returns_on_short_mirror_write
  · decide
  · decide
  · intro t fd data count hc
    have hne : count ≠ 0 := by omega
    simp only [trickleEnv, if_neg hne]
    omega
  · decide

/-- When the first `::write` takes the whole non-empty buffer and a `::write` of zero
    bytes returns no positive count, the mirror loop makes exactly two passes and the
    bytes delivered are the buffer's first `bytes` bytes, once and in order. -/
theorem mirrorLoop_full_accept (E : Env σ τ) (buffer : List Nat) (bytes fuel : Nat)
    (s : AudioStreamOutALSA σ τ) (hb : 0 < bytes)
    (hfull : (E.sock_write s.net s.pcm_server_socket (slice buffer 0 bytes) bytes).1 = bytes)
    (hempty : ∀ t fd data, (E.sock_write t fd data 0).1 ≤ 0) :
    ∃ s1 r, mirrorLoop E buffer bytes (fuel + 2) 0 s = some s1 ∧
      s1.trace = s.trace ++ [Event.sock_write s.pcm_server_socket 0 bytes bytes,
                             Event.sock_write s.pcm_server_socket bytes 0 r] ∧
      mirrored buffer [Event.sock_write s.pcm_server_socket 0 bytes bytes,
                       Event.sock_write s.pcm_server_socket bytes 0 r] =
        slice buffer 0 bytes := by
  have h1 : (0 : Int) < (E.sock_write s.net s.pcm_server_socket (slice buffer 0 bytes) bytes).1 := by
    rw [hfull]; exact_mod_cast hb
  have e : fuel + 2 = (fuel + 1) + 1 := rfl
  rw [e, mirrorLoop_succ]
  simp only [Int.toNat_zero, Nat.sub_zero]
  rw [if_pos h1, mirrorLoop_succ]
  simp only [hfull, Int.toNat_ofNat, Nat.sub_self]
  have h2 := hempty (E.sock_write s.net s.pcm_server_socket (slice buffer 0 bytes) bytes).2
    s.pcm_server_socket (slice buffer bytes 0)
  have h3 : ¬ (0 : Int) < (E.sock_write
      (E.sock_write s.net s.pcm_server_socket (slice buffer 0 bytes) bytes).2
      s.pcm_server_socket (slice buffer bytes 0) 0).1 := by omega
  rw [if_neg h3]
  have hbi : (0 : Int) < (bytes : Int) := by exact_mod_cast hb
  refine ⟨_, (E.sock_write
      (E.sock_write s.net s.pcm_server_socket (slice buffer 0 bytes) bytes).2
      s.pcm_server_socket (slice buffer bytes 0) 0).1, rfl, by simp, ?_⟩
  simp [mirrored, hbi, h3]

/-! ## The device path apart from the mirror -/

theorem nonSocket_recoverHook (E : Env σ τ) (n : Int) :
    nonSocket (recoverHook E n) = recoverHook E n := by
  unfold recoverHook
  cases E.acoustics with
  | none => rfl
  | some a => by_cases h : a.recover = true <;> simp [h, nonSocket]

theorem nonSocket_writeHook (E : Env σ τ) (n : Nat) :
    nonSocket (writeHook E n) = writeHook E n := by
  unfold writeHook
  cases E.acoustics with
  | none => rfl
  | some a => by_cases h : a.write = true <;> simp [h, nonSocket]

/-- Forgetting the socket calls of a log keeps its device calls. -/
theorem deviceCalls_nonSocket (xs : List Event) : deviceCalls (nonSocket xs) = deviceCalls xs := by
  induction xs with
  | nil => rfl
  | cons e es ih => cases e <;> simp [deviceCalls, nonSocket, ih]

/-- One pass of the loop body commutes with forgetting the mirror. -/
theorem writeIter_offMirror (E : Env σ τ) (buffer : List Nat) (bytes sent : Nat)
    (s : AudioStreamOutALSA σ τ) :
    writeIter E.offMirror buffer bytes sent (offMirror s) =
      match writeIter E buffer bytes sent s with
      | .ret code s1 => .ret code (offMirror s1)
      | .next sent1 s1 => .next sent1 (offMirror s1) := by
  have hq := nonSocket_recoverHook E
  have hw : writeiAt E.offMirror buffer bytes sent (offMirror s) = writeiAt E buffer bytes sent s :=
    rfl
  have hh : ∀ n, recoverHook E.offMirror n = recoverHook E n := fun _ => rfl
  have ho : offeredFrames E.offMirror bytes sent = offeredFrames E bytes sent := rfl
  have hf : E.offMirror.frameSize = E.frameSize := rfl
  have hm : E.offMirror.module_open = E.module_open := rfl
  have hr : E.offMirror.snd_pcm_recover = E.snd_pcm_recover := rfl
  have h1 : (offMirror s).mHandle = s.mHandle := rfl
  have h2 : (offMirror s).mFrameCount = s.mFrameCount := rfl
  have h3 : (offMirror s).trace = nonSocket s.trace := rfl
  by_cases hbad : (writeiAt E buffer bytes sent s).1 = -EBADFD
  · rw [writeIter_badfd E buffer bytes sent s hbad,
      writeIter_badfd E.offMirror buffer bytes sent (offMirror s) (by rw [hw]; exact hbad)]
    simp only [hw, hh, ho, hm, h1, h3]
    simp [offMirror, nonSocket_append, nonSocket, hq]
  · by_cases hneg : (writeiAt E buffer bytes sent s).1 < 0
    · by_cases hvalid : s.mHandle.handle ≠ 0
      · rw [writeIter_fault E buffer bytes sent s hneg hbad hvalid,
          writeIter_fault E.offMirror buffer bytes sent (offMirror s) (by rw [hw]; exact hneg)
            (by rw [hw]; exact hbad) hvalid]
        simp only [hw, hh, ho, hr, h1, h3]
        split <;> simp [offMirror, nonSocket_append, nonSocket, hq]
      · have hnull : s.mHandle.handle = 0 := by simpa using hvalid
        rw [writeIter_fault_null E buffer bytes sent s hneg hbad hnull,
          writeIter_fault_null E.offMirror buffer bytes sent (offMirror s)
            (by rw [hw]; exact hneg) (by rw [hw]; exact hbad) hnull]
        simp only [hw, ho, h1, h3]
        simp [offMirror, nonSocket_append, nonSocket]
    · have hpos : 0 ≤ (writeiAt E buffer bytes sent s).1 := by omega
      rw [writeIter_accept E buffer bytes sent s hpos,
        writeIter_accept E.offMirror buffer bytes sent (offMirror s) (by rw [hw]; exact hpos)]
      simp only [hw, ho, hf, h1, h2, h3]
      simp [offMirror, nonSocket_append, nonSocket]

/-- The device loop commutes with forgetting the mirror. -/
theorem deviceLoop_offMirror (E : Env σ τ) (buffer : List Nat) (bytes : Nat) :
    ∀ fuel sent (s : AudioStreamOutALSA σ τ),
      deviceLoop E.offMirror buffer bytes fuel sent (offMirror s) =
        (deviceLoop E buffer bytes fuel sent s).map writeView := by
  intro fuel
  induction fuel with
  | zero => intro sent s; rfl
  | succ fuel ih =>
    intro sent s
    rw [deviceLoop_succ, deviceLoop_succ, writeIter_offMirror]
    cases writeIter E buffer bytes sent s with
    | ret code s1 => rfl
    | next sent1 s1 =>
      have hh : (offMirror s1).mHandle = s1.mHandle := rfl
      simp only [hh]
      split
      · exact ih sent1 s1
      · rfl

/-- The prologue of `write` commutes with forgetting the mirror. -/
theorem prologue_offMirror (E : Env σ τ) (bytes : Nat) (s : AudioStreamOutALSA σ τ) :
    offMirror (notifyWrite E bytes (acquirePowerLock s)) =
      notifyWrite E.offMirror bytes (acquirePowerLock (offMirror s)) := by
  have hh : writeHook E.offMirror bytes = writeHook E bytes := rfl
  have hq := nonSocket_writeHook E bytes
  have hp : (offMirror s).mPowerLock = s.mPowerLock := rfl
  unfold notifyWrite acquirePowerLock
  rw [hp, hh]
  split <;> simp [offMirror, nonSocket_append, nonSocket, hq]

/-- Apart from the mirror, a `write` whose mirror section finishes is the `write` of
    the same stream with no mirror client at all. -/
theorem write_offMirror (E : Env σ τ) (buffer : List Nat) (bytes mfuel dfuel : Nat)
    (s s1 : AudioStreamOutALSA σ τ)
    (hm : mirrorSection E buffer bytes mfuel (notifyWrite E bytes (acquirePowerLock s)) = some s1) :
    (write E buffer bytes mfuel dfuel s).map writeView =
      write E.offMirror buffer bytes 0 dfuel (offMirror s) := by
  rw [write_of_mirrorSection E buffer bytes mfuel dfuel s s1 hm, ← deviceLoop_offMirror,
    (mirrorSection_spec E buffer bytes mfuel _ s1 hm).1, prologue_offMirror]
  have hs : mirrorSection E.offMirror buffer bytes 0
      (notifyWrite E.offMirror bytes (acquirePowerLock (offMirror s))) =
      some (notifyWrite E.offMirror bytes (acquirePowerLock (offMirror s))) := by
    have h0 : (notifyWrite E.offMirror bytes (acquirePowerLock (offMirror s))).pcm_server_socket
        = 0 := by
      unfold notifyWrite acquirePowerLock; split <;> rfl
    unfold mirrorSection
    rw [h0]; simp
  rw [write_of_mirrorSection E.offMirror buffer bytes 0 dfuel (offMirror s) _ hs]

/-- Two runs of `write` that differ only in the mirror (socket layer, socket world,
    descriptor, socket calls already in the log) and whose mirror sections both finish
    agree on everything else: both return or neither does, with the same return value,
    the same members other than the descriptor, the same device world, and the same
    calls other than socket calls. -/
theorem write_mirror_independent {τ₁ τ₂ : Type} (E₁ : Env σ τ₁) (E₂ : Env σ τ₂)
    (buffer : List Nat) (bytes mfuel₁ mfuel₂ dfuel : Nat)
    (s₁ t₁ : AudioStreamOutALSA σ τ₁) (s₂ t₂ : AudioStreamOutALSA σ τ₂)
    (hE : E₁.offMirror = E₂.offMirror) (hs : offMirror s₁ = offMirror s₂)
    (h₁ : mirrorSection E₁ buffer bytes mfuel₁ (notifyWrite E₁ bytes (acquirePowerLock s₁))
      = some t₁)
    (h₂ : mirrorSection E₂ buffer bytes mfuel₂ (notifyWrite E₂ bytes (acquirePowerLock s₂))
      = some t₂) :
    (write E₁ buffer bytes mfuel₁ dfuel s₁).map writeView =
      (write E₂ buffer bytes mfuel₂ dfuel s₂).map writeView := by
  rw [write_offMirror E₁ buffer bytes mfuel₁ dfuel s₁ t₁ h₁,
    write_offMirror E₂ buffer bytes mfuel₂ dfuel s₂ t₂ h₂, hE, hs]

/-- C8 fails on the code at the buffer `[1, 2]` with 1-byte frames: the two streams
    differ only in the mirror descriptor; with no client `write` returns 2, with a
    client whose socket accepts one byte per `::write` it never returns, whatever the
    bounds. -/
theorem write_return_depends_on_mirror :
    offMirror (setPCMServerSocket 7 idleStream) = offMirror idleStream ∧
    write (trickleEnv 1) [1, 2] 2 1 1 idleStream =
      some (.count 2,
        { idleStream with
          mFrameCount := 2, mPowerLock := true,
          trace := [Event.acquire_wake_lock, Event.snd_pcm_writei 1 0 2 2] }) ∧
    ∀ mfuel dfuel,
      write (trickleEnv 1) [1, 2] 2 mfuel dfuel (setPCMServerSocket 7 idleStream) = none := by
  refine ⟨rfl, rfl, fun mfuel dfuel => ?_⟩
  apply write_never_returns_on_short_mirror_write
  · decide
  · decide
  · intro t fd data count hc
    have hne : count ≠ 0 := by omega
    simp only [trickleEnv, if_neg hne]
    omega
  · decide


/-! ## Latency -/

/-- C9, as stated, fails at the top of the range of a 32-bit unsigned latency field:
    at 4294967295 microseconds `x + 999` wraps to 998 and `latency` returns 0, which is
    not a number of milliseconds covering the value. -/
theorem latency_wraps_at_top_of_range :
    latency 32
      ({ idleStream with mHandle := { idleStream.mHandle with latency := 4294967295 } }) = 0 ∧
    (4294967295 : Nat) < 2 ^ 32 ∧
    ¬ (4294967295 ≤ 1000 * latency 32
      ({ idleStream with mHandle := { idleStream.mHandle with latency := 4294967295 } })) := by
  decide

/-- C9, amended.  With the latency field an unsigned integer of `w` bits: for every
    value `x` of the field such that `x + 999` still fits in `w` bits (and whose
    quotient fits the returned `uint32_t`, which is automatic for `w ≤ 32`),
    `latency` returns `(x + 999) / 1000`, the least `m` with `1000 * m ≥ x`. -/
theorem latency_rounds_up (w : Nat) (s : AudioStreamOutALSA σ τ)
    (hx : s.mHandle.latency + 999 < 2 ^ w)
    (hfit : (s.mHandle.latency + 999) / 1000 < UINT32_MOD) :
    latency w s = (s.mHandle.latency + 999) / 1000 ∧
    s.mHandle.latency ≤ 1000 * latency w s ∧
    ∀ m, s.mHandle.latency ≤ 1000 * m → latency w s ≤ m := by
  have h1 : s.mHandle.latency % 2 ^ w = s.mHandle.latency := Nat.mod_eq_of_lt (by omega)
  have hl : latency w s = (s.mHandle.latency + 999) / 1000 := by
    unfold latency USEC_TO_MSEC
    rw [h1, Nat.mod_eq_of_lt hx, Nat.mod_eq_of_lt hfit]
  rw [hl]
  refine ⟨rfl, by omega, fun m hm => by omega⟩

/-- C9, witness: 1001 microseconds in a 32-bit field give 2 milliseconds. -/
theorem latency_rounds_up_witness :
    latency 32 idleStream = (1001 + 999) / 1000 ∧
    1001 ≤ 1000 * latency 32 idleStream ∧
    ∀ m, 1001 ≤ 1000 * m → latency 32 idleStream ≤ m :=
  latency_rounds_up 32 idleStream (by decide) (by decide)

/-! ## Termination of the device loop on an ideal device -/

/-- With less than one frame left, every further pass offers zero frames and leaves
    `sent` where it is. -/
theorem loopState_stuck (E : Env σ τ) (buffer : List Nat) (bytes sent : Nat)
    (hdev : ∀ w pcm data frames, (E.snd_pcm_writei w pcm data frames).1 = frames)
    (hzero : offeredFrames E bytes sent = 0) (hlt : sent < bytes) :
    ∀ k (s : AudioStreamOutALSA σ τ), s.mHandle.handle ≠ 0 →
      ∃ sk, loopState E buffer bytes k sent s = some (sent, sk) := by
  intro k
  induction k with
  | zero => intro s _; exact ⟨s, rfl⟩
  | succ k ih =>
    intro s hv
    obtain ⟨s1, hw, hh, _⟩ := writeIter_ideal E buffer bytes sent s hdev
    rw [hzero, Nat.zero_mul, Nat.add_zero] at hw
    simp only [loopState, hw]
    have hc : s1.mHandle.handle ≠ 0 ∧ sent < bytes := ⟨by rw [hh]; exact hv, hlt⟩
    rw [if_pos hc]
    exact ih s1 hc.1

/-- C10.  With a valid handle, a positive frame size and a device that never faults
    and accepts exactly the frames it is offered, the device loop of `write` (entered
    with `sent = 0`) terminates if and only if `bytes` is a multiple of the frame size.
    When it is, the loop returns `bytes` after one device write, which is at most
    `max 1 (bytes / frameSize)`.  When it is not, the loop never exits: from the second
    pass on `sent` stays at the whole frames of `bytes`, the tail left is shorter than
    one frame, and the frame count offered is zero. -/
theorem deviceLoop_terminates_iff_whole_frames (E : Env σ τ) (buffer : List Nat) (bytes : Nat)
    (s : AudioStreamOutALSA σ τ)
    (hfs : 0 < E.frameSize) (hvalid : s.mHandle.handle ≠ 0)
    (hdev : ∀ w pcm data frames, (E.snd_pcm_writei w pcm data frames).1 = frames) :
    ((∃ fuel out, deviceLoop E buffer bytes fuel 0 s = some out) ↔ E.frameSize ∣ bytes) ∧
    (E.frameSize ∣ bytes →
      ∃ s1 evs, (∀ fuel, deviceLoop E buffer bytes (fuel + 1) 0 s = some (.count bytes, s1)) ∧
        s1.trace = s.trace ++ evs ∧ deviceWrites evs = 1 ∧
        deviceWrites evs ≤ max 1 (bytes / E.frameSize)) ∧
    (¬ E.frameSize ∣ bytes →
      (∀ fuel, deviceLoop E buffer bytes fuel 0 s = none) ∧
      bytes / E.frameSize * E.frameSize < bytes ∧
      bytes - bytes / E.frameSize * E.frameSize < E.frameSize ∧
      offeredFrames E bytes (bytes / E.frameSize * E.frameSize) = 0 ∧
      ∀ k, ∃ sk, loopState E buffer bytes (k + 1) 0 s =
        some (bytes / E.frameSize * E.frameSize, sk)) := by
  obtain ⟨s1, hw, hh, ht⟩ := writeIter_ideal E buffer bytes 0 s hdev
  have hoff : offeredFrames E bytes 0 = bytes / E.frameSize := rfl
  rw [hoff, Nat.zero_add] at hw
  have hdm : E.frameSize * (bytes / E.frameSize) + bytes % E.frameSize = bytes :=
    Nat.div_add_mod _ _
  have hcomm : bytes / E.frameSize * E.frameSize = E.frameSize * (bytes / E.frameSize) :=
    Nat.mul_comm _ _
  have hdiv : E.frameSize ∣ bytes →
      ∀ fuel, deviceLoop E buffer bytes (fuel + 1) 0 s = some (.count bytes, s1) := by
    intro hd fuel
    have hb : bytes / E.frameSize * E.frameSize = bytes := Nat.div_mul_cancel hd
    rw [deviceLoop_succ, hw, hb]
    simp
  have hnot : ¬ E.frameSize ∣ bytes → ∀ fuel, deviceLoop E buffer bytes fuel 0 s = none :=
    fun hnd fuel =>
      deviceLoop_never_exits E buffer bytes hfs hdev fuel 0 s hvalid (Nat.zero_le _) hnd
  refine ⟨⟨?_, fun hd => ⟨1, _, hdiv hd 0⟩⟩, ?_, ?_⟩
  · rintro ⟨fuel, out, ho⟩
    by_contra hnd
    rw [hnot hnd fuel] at ho
    simp at ho
  · intro hd
    refine ⟨s1, _, hdiv hd, ht, ?_, ?_⟩
    · simp [deviceWrites]
    · simp [deviceWrites]
  · intro hnd
    have hmod : bytes % E.frameSize ≠ 0 := fun h => hnd (Nat.dvd_of_mod_eq_zero h)
    have hlt : bytes % E.frameSize < E.frameSize := Nat.mod_lt _ hfs
    have hless : bytes / E.frameSize * E.frameSize < bytes := by omega
    have hrem : bytes - bytes / E.frameSize * E.frameSize = bytes % E.frameSize := by omega
    have hzero : offeredFrames E bytes (bytes / E.frameSize * E.frameSize) = 0 := by
      unfold offeredFrames snd_pcm_bytes_to_frames
      rw [hrem]
      exact Nat.div_eq_of_lt hlt
    refine ⟨hnot hnd, hless, by omega, hzero, fun k => ?_⟩
    simp only [loopState, hw]
    have hc : s1.mHandle.handle ≠ 0 ∧ bytes / E.frameSize * E.frameSize < bytes :=
      ⟨by rw [hh]; exact hvalid, hless⟩
    rw [if_pos hc]
    exact loopState_stuck E buffer bytes _ hdev hzero hless k s1 hc.1

/-- C10, witness: with 4-byte frames a request of 8 bytes ends after one device write,
    a request of 6 bytes never ends. -/
theorem deviceLoop_terminates_iff_whole_frames_witness :
    (((∃ fuel out, deviceLoop (idealEnv 4) [1, 2, 3, 4, 5, 6, 7, 8] 8 fuel 0 idleStream =
        some out) ↔ (idealEnv 4).frameSize ∣ 8) ∧
      ((idealEnv 4).frameSize ∣ 8 →
        ∃ s1 evs, (∀ fuel, deviceLoop (idealEnv 4) [1, 2, 3, 4, 5, 6, 7, 8] 8 (fuel + 1) 0
            idleStream = some (.count 8, s1)) ∧
          s1.trace = idleStream.trace ++ evs ∧ deviceWrites evs = 1 ∧
          deviceWrites evs ≤ max 1 (8 / (idealEnv 4).frameSize)) ∧
      (¬ (idealEnv 4).frameSize ∣ 8 →
        (∀ fuel, deviceLoop (idealEnv 4) [1, 2, 3, 4, 5, 6, 7, 8] 8 fuel 0 idleStream = none) ∧
        8 / (idealEnv 4).frameSize * (idealEnv 4).frameSize < 8 ∧
        8 - 8 / (idealEnv 4).frameSize * (idealEnv 4).frameSize < (idealEnv 4).frameSize ∧
        offeredFrames (idealEnv 4) 8 (8 / (idealEnv 4).frameSize * (idealEnv 4).frameSize) = 0 ∧
        ∀ k, ∃ sk, loopState (idealEnv 4) [1, 2, 3, 4, 5, 6, 7, 8] 8 (k + 1) 0 idleStream =
          some (8 / (idealEnv 4).frameSize * (idealEnv 4).frameSize, sk))) ∧
    (¬ (idealEnv 4).frameSize ∣ 6 ∧
      ∀ fuel, deviceLoop (idealEnv 4) [1, 2, 3, 4, 5, 6] 6 fuel 0 idleStream = none) :=
  ⟨deviceLoop_terminates_iff_whole_frames (idealEnv 4) [1, 2, 3, 4, 5, 6, 7, 8] 8 idleStream
      (by decide) (by decide) (fun _ _ _ _ => rfl),
   by decide,
   ((deviceLoop_terminates_iff_whole_frames (idealEnv 4) [1, 2, 3, 4, 5, 6] 6 idleStream
      (by decide) (by decide) (fun _ _ _ _ => rfl)).2.2 (by decide)).1⟩

end android
